import Mathlib

/-!
Verification development for wheel2conda, a converter from Python wheel
archives to conda packages.  The definitions below are a shallow embedding
of the package `src/wheel2conda/` (files `__init__.py`, `wheel.py`,
`requirements.py`); the top-level `wheel2conda.py` is a superseded early
draft and is not modelled.  Python strings are Lean `String`s, Python byte
strings are also represented as `String`s (contents are opaque to all the
modelled logic except for length and hashing, which are abstracted as
parameters), exceptions are `Except String`, and the filesystem tree of the
extracted wheel is explicit data.
-/

/-! ### Python string primitives

Structural implementations (over the character list of a `String`) of the
Python string methods the source uses, so that every definition in this
file evaluates by kernel reduction.  `split` is only ever called with a
single-character separator, and `replace` only with a single-character
pattern and empty replacement, so those are modelled at exactly that
generality. -/

/-- Python `s.endswith(suf)`. -/
def pyEndsWith (s suf : String) : Bool := suf.data.isSuffixOf s.data

/-- Python `s.startswith(p)`. -/
def pyStartsWith (s p : String) : Bool := p.data.isPrefixOf s.data

def pySplitCharAux (sep : Char) : List Char → List Char → List String
  | [], acc => [String.mk acc.reverse]
  | c :: cs, acc =>
    if c = sep then String.mk acc.reverse :: pySplitCharAux sep cs []
    else pySplitCharAux sep cs (c :: acc)

/-- Python `s.split(sep)` for a one-character separator. -/
def pySplitChar (s : String) (sep : Char) : List String :=
  pySplitCharAux sep s.data []

/-- Python `s.replace(c, '')` for a one-character pattern. -/
def pyRemoveChar (s : String) (c : Char) : String :=
  String.mk (s.data.filter (fun d => !(d = c)))

/-- Python `s.lower()` (ASCII case mapping, which covers every value the
source lower-cases). -/
def pyLower (s : String) : String := String.mk (s.data.map Char.toLower)

/-- Python `c in s` for a single character. -/
def pyContainsChar (s : String) (c : Char) : Bool := s.data.contains c

def listIsInfix (pat : List Char) : List Char → Bool
  | [] => pat.isEmpty
  | c :: rest => pat.isPrefixOf (c :: rest) || listIsInfix pat rest

/-- Python `pat in s` for strings. -/
def hasSubstr (s pat : String) : Bool := listIsInfix pat.data s.data

/-! ### Platform enum (`__init__.py`, class Platform) -/

inductive Platform where
  | linux
  | osx
  | win
deriving DecidableEq, Repr

def platformName : Platform → String
  | .linux => "linux"
  | .osx => "osx"
  | .win => "win"

/-! ### Metadata mappings

`_read_metadata` (wheel.py) produces a dict from field name to a nonempty
ordered list of string values.  We model such a dict as an association list
whose value is the first element paired with the remaining elements, so the
Python expression `metadata[k][0]` is total whenever the key is present.
The parsing itself (colon-splitting of a text block) is not needed by any
claim and is not modelled: functions take the parsed mapping directly. -/

abbrev Metadata := List (String × (String × List String))

def mdLookup : Metadata → String → Option (String × List String)
  | [], _ => none
  | (k2, v) :: rest, k => if k2 = k then some v else mdLookup rest k

/-- Models `metadata.get(key, [])`. -/
def mdGetList (md : Metadata) (k : String) : List String :=
  match mdLookup md k with
  | some (v, vs) => v :: vs
  | none => []

def strLookup : List (String × String) → String → Option String
  | [], _ => none
  | (k2, v) :: rest, k => if k2 = k then some v else strLookup rest k

/-! ### Filesystem trees

The extracted wheel directory is a tree of named files and directories.
A file carries its contents (bytes, as a `String`) and its filesystem
modification time; listing order of children models the order in which
`Path.iterdir` / `os.walk` / `tarfile.add` enumerate a directory. -/

mutual
inductive FsNode where
  | file (contents : String) (mtime : Nat)
  | dir (mtime : Nat) (children : FsChildren)
inductive FsChildren where
  | nil
  | cons (name : String) (node : FsNode) (rest : FsChildren)
end

deriving instance DecidableEq for Except

def isDirNode : FsNode → Bool
  | .file _ _ => false
  | .dir _ _ => true

/-! ### wheel.py: WheelContents.find_dist_info

Scans the top-level entries (in listing order) and returns the first one
whose name ends in `.dist-info`; raises BadWheelError (modelled as
`Except.error`) when there is none.  Note that it checks only names: it
performs no uniqueness or is-directory validation. -/

def findDistInfo : List (String × FsNode) → Except String (String × FsNode)
  | [] => .error "Didn't find .dist-info directory"
  | (n, t) :: rest =>
    if pyEndsWith n ".dist-info" then .ok (n, t) else findDistInfo rest

/-! ### wheel.py: WheelContents.check

The loop body performs, for one top-level entry, first the `.dist-info`
checks and then the `.data` checks, threading the `dist_info`/`data_dir`
"already seen" state (we only need booleans).  All raised messages are
BadWheelError texts except the `KeyError:` ones, which model Python
`KeyError` on a missing dict key. -/

def checkEntry (n : String) (isDir hasDI hasData : Bool) :
    Except String (Bool × Bool) :=
  match (if pyEndsWith n ".dist-info" then
           if !isDir then Except.error ".dist-info not a directory"
           else if hasDI then Except.error "Multiple .dist-info directories"
           else Except.ok true
         else Except.ok hasDI : Except String Bool) with
  | .error e => .error e
  | .ok hasDI2 =>
    match (if pyEndsWith n ".data" then
             if !isDir then Except.error ".data not a directory"
             else if hasData then Except.error "Multiple .data directories"
             else Except.ok true
           else Except.ok hasData : Except String Bool) with
    | .error e => .error e
    | .ok hasData2 => .ok (hasDI2, hasData2)

def checkEntries : List (String × FsNode) → Bool → Bool → Except String Bool
  | [], hasDI, _ => .ok hasDI
  | (n, t) :: rest, hasDI, hasData =>
    match checkEntry n (isDirNode t) hasDI hasData with
    | .error e => .error e
    | .ok (d2, a2) => checkEntries rest d2 a2

/-- `WheelContents.check`.  `wheelMd` is the parsed `.dist-info/WHEEL`
metadata and `md` the parsed `.dist-info/METADATA` metadata. -/
def check (entries : List (String × FsNode)) (wheelMd md : Metadata) :
    Except String Unit :=
  match checkEntries entries false false with
  | .error e => .error e
  | .ok hasDI =>
    if !hasDI then .error "Didn't find .dist-info directory"
    else match mdLookup wheelMd "Wheel-Version" with
    | none => .error "KeyError: Wheel-Version"
    | some (wv, _) =>
      if wv ≠ "1.0" then
        .error "wheel2conda only knows about wheel format 1.0"
      else match mdLookup wheelMd "Root-Is-Purelib" with
      | none => .error "KeyError: Root-Is-Purelib"
      | some (rip, _) =>
        if pyLower rip ≠ "true" then
          .error "Can't currently autoconvert packages with platlib"
        else if mdLookup md "Name" = none then
          .error "Missing required metadata field: Name"
        else if mdLookup md "Version" = none then
          .error "Missing required metadata field: Version"
        else .ok ()

/-! ### wheel.py: WheelContents.filter_compatible_pythons

`wheelMd` is the parsed `.dist-info/WHEEL` metadata (read inside the
function via `_read_metadata`).  `wheel_metadata['Tag']` raises `KeyError`
when absent, hence the `Except` result.  `{t.split('-')[0] for t in tags}`
is a set; equality with the singleton `{'py3'}` is "nonempty and all first
components equal" — nonemptiness is automatic since present metadata keys
always carry at least one value. -/

def pyTagOf (t : String) : String := (pySplitChar t '-').headD ""

def filter_compatible_pythons (md wheelMd : Metadata) (versions : List String) :
    Except String (List String) :=
  let tagBranch : Except String (List String) :=
    match mdLookup wheelMd "Tag" with
    | none => .error "KeyError: Tag"
    | some (t0, ts) =>
      let pyTags := (t0 :: ts).map pyTagOf
      if pyTags.all (· == "py3") then
        .ok (versions.filter (fun p => !(pyStartsWith p "2.")))
      else if pyTags.all (· == "py2") then
        .ok (versions.filter (fun p => pyStartsWith p "2."))
      else .ok versions
  match mdLookup md "Requires-Python" with
  | some (rp, _) =>
    if pyStartsWith rp "3" || pyStartsWith rp ">3" || pyStartsWith rp ">=3"
        || pyStartsWith rp "~=3" then
      .ok (versions.filter (fun p => !(pyStartsWith p "2.")))
    else if rp = "<3" || rp = "<3.0" then
      .ok (versions.filter (fun p => pyStartsWith p "2."))
    else tagBranch
  | none => tagBranch

/-! ### requirements.py: environment marker evaluation

`eval_env_marker` parses a marker string with `ast.parse`, substitutes the
recognized names/attributes with string constants (class
`EnvMarkerNameFiller`), and evaluates the resulting constant expression.
`MarkerExpr` is the relevant fragment of the Python expression AST
(string literals, bare names, `obj.attr` attribute access, binary
comparisons, and boolean combinators).  `ast.parse` itself is Python
standard library; functions that need it take an abstract
`parse : String → Except String MarkerExpr` argument. -/

inductive CmpOp where
  | eq
  | ne
  | lt
  | le
  | gt
  | ge
deriving DecidableEq, Repr

inductive MarkerExpr where
  | strLit (s : String)
  | name (id : String)
  | attr (objId attrName : String)
  | cmp (op : CmpOp) (lhs rhs : MarkerExpr)
  | band (lhs rhs : MarkerExpr)
  | bor (lhs rhs : MarkerExpr)
  | bnot (e : MarkerExpr)
deriving DecidableEq, Repr

def sys_platforms : List (String × String) :=
  [("linux", "linux"), ("osx", "darwin"), ("win", "win32")]

def os_names : List (String × String) :=
  [("linux", "posix"), ("osx", "posix"), ("win", "nt")]

def platform_machines : List (String × String) :=
  [("32", "i386"), ("64", "x86_64")]

/-- `EnvMarkerNameFiller.visit_Name`: only `python_version` and
`python_full_version` are recognized as bare names; anything else raises
`ValueError("Unexpected name: ...")`. -/
def fillName (pythonVersion id : String) : Except String String :=
  if id = "python_version" then .ok pythonVersion
  else if id = "python_full_version" then .ok (pythonVersion ++ ".0")
  else .error ("Unexpected name: " ++ id)

/-- `EnvMarkerNameFiller.visit_Attribute`.  The `assert node.value.id`
statements and dict lookups that can raise are modelled as errors. -/
def fillAttr (platform bitness objId attrName : String) :
    Except String String :=
  if attrName = "platform" then
    if objId = "sys" then
      match strLookup sys_platforms platform with
      | some v => .ok v
      | none => .error ("KeyError: " ++ platform)
    else .error "AssertionError"
  else if attrName = "name" then
    if objId = "os" then
      match strLookup os_names platform with
      | some v => .ok v
      | none => .error ("KeyError: " ++ platform)
    else .error "AssertionError"
  else if attrName = "version" then
    if objId = "platform" then .ok "" else .error "AssertionError"
  else if attrName = "machine" then
    if objId = "platform" then
      match strLookup platform_machines bitness with
      | some v => .ok v
      | none => .error ("KeyError: " ++ bitness)
    else .error "AssertionError"
  else if attrName = "python_implementation" then
    if objId = "platform" then .ok "CPython" else .error "AssertionError"
  else .error ("Unknown attribute: " ++ attrName)

/-- The `filler.visit(expr)` pass: every name / attribute node is replaced
by a string constant; children are visited left to right, so the leftmost
failing node determines the error. -/
def fillExpr (pythonVersion platform bitness : String) :
    MarkerExpr → Except String MarkerExpr
  | .strLit s => .ok (.strLit s)
  | .name id =>
    match fillName pythonVersion id with
    | .ok s => .ok (.strLit s)
    | .error e => .error e
  | .attr o a =>
    match fillAttr platform bitness o a with
    | .ok s => .ok (.strLit s)
    | .error e => .error e
  | .cmp op l r =>
    match fillExpr pythonVersion platform bitness l,
          fillExpr pythonVersion platform bitness r with
    | .ok l2, .ok r2 => .ok (.cmp op l2 r2)
    | .error e, _ => .error e
    | _, .error e => .error e
  | .band l r =>
    match fillExpr pythonVersion platform bitness l,
          fillExpr pythonVersion platform bitness r with
    | .ok l2, .ok r2 => .ok (.band l2 r2)
    | .error e, _ => .error e
    | _, .error e => .error e
  | .bor l r =>
    match fillExpr pythonVersion platform bitness l,
          fillExpr pythonVersion platform bitness r with
    | .ok l2, .ok r2 => .ok (.bor l2 r2)
    | .error e, _ => .error e
    | _, .error e => .error e
  | .bnot e =>
    match fillExpr pythonVersion platform bitness e with
    | .ok e2 => .ok (.bnot e2)
    | .error e => .error e

/-- Python string comparison: lexicographic on Unicode code points. -/
def pyCharListLt : List Char → List Char → Bool
  | [], [] => false
  | [], _ :: _ => true
  | _ :: _, [] => false
  | a :: xs, b :: ys =>
    if a = b then pyCharListLt xs ys else decide (a.toNat < b.toNat)

def pyStrLt (a b : String) : Bool := pyCharListLt a.data b.data

def applyCmp : CmpOp → String → String → Bool
  | .eq, a, b => a == b
  | .ne, a, b => !(a == b)
  | .lt, a, b => pyStrLt a b
  | .le, a, b => pyStrLt a b || a == b
  | .gt, a, b => pyStrLt b a
  | .ge, a, b => pyStrLt b a || a == b

def evalConstStr : MarkerExpr → Except String String
  | .strLit s => .ok s
  | _ => .error "TypeError: comparison operand is not a string constant"

/-- `eval(compile(expr, ...))` on the constant-folded tree: single binary
comparisons between string constants and the boolean combinators, with
Python short-circuit semantics.  (Chained comparisons and `in` are not
used by any marker in this development.) -/
def evalConstBool : MarkerExpr → Except String Bool
  | .cmp op l r =>
    match evalConstStr l, evalConstStr r with
    | .ok a, .ok b => .ok (applyCmp op a b)
    | .error e, _ => .error e
    | _, .error e => .error e
  | .band l r =>
    match evalConstBool l with
    | .ok true => evalConstBool r
    | .ok false => .ok false
    | .error e => .error e
  | .bor l r =>
    match evalConstBool l with
    | .ok true => .ok true
    | .ok false => evalConstBool r
    | .error e => .error e
  | .bnot e =>
    match evalConstBool e with
    | .ok a => .ok (!a)
    | .error e => .error e
  | _ => .error "TypeError: marker does not evaluate to a boolean"

/-- `eval_env_marker(s, python_version, platform, bitness)`. -/
def eval_env_marker (parse : String → Except String MarkerExpr)
    (s pythonVersion platform bitness : String) : Except String Bool :=
  match parse s with
  | .error e => .error e
  | .ok expr =>
    match fillExpr pythonVersion platform bitness expr with
    | .error e => .error e
    | .ok filled => evalConstBool filled

/-- The `ast.parse(s, '<environment_marker>', 'eval')` results for the
marker strings exercised by the claims; each success case is exactly the
AST Python produces for that string.  A marker split off by
`r.split(';', 1)` keeps any whitespace that followed the semicolon, and
`ast.parse` in `eval` mode raises `IndentationError: unexpected indent`
on a leading space — modelled by the error case below. -/
def markerParse : String → Except String MarkerExpr := fun s =>
  if s = "sys_platform == 'linux'" then
    .ok (.cmp .eq (.name "sys_platform") (.strLit "linux"))
  else if s = "sys.platform == 'linux'" then
    .ok (.cmp .eq (.attr "sys" "platform") (.strLit "linux"))
  else if s = "python_version < '3'" then
    .ok (.cmp .lt (.name "python_version") (.strLit "3"))
  else if s = " python_version < '3'" then
    .error "IndentationError: unexpected indent"
  else .error ("unmodelled marker: " ++ s)

/-! ### requirements.py: requires_dist_to_conda_requirements -/

def requires_dist_to_conda_requirements
    (parse : String → Except String MarkerExpr) (reqs : List String)
    (pythonVersion platform bitness : String) : Except String (List String) :=
  match reqs with
  | [] => .ok []
  | r :: rest =>
    let stepRes : Except String (String × Bool) :=
      if pyContainsChar r ';' then
        let parts := pySplitChar r ';'
        let base := parts.headD ""
        let marker := String.intercalate ";" parts.tail
        match eval_env_marker parse marker pythonVersion platform bitness with
        | .ok a => .ok (base, a)
        | .error e => .error e
      else .ok (r, true)
    match stepRes with
    | .error e => .error e
    | .ok (base, applicable) =>
      match requires_dist_to_conda_requirements parse rest pythonVersion
          platform bitness with
      | .error e => .error e
      | .ok res =>
        if applicable then
          .ok ((pyRemoveChar (pyRemoveChar base '(') ')') :: res)
        else .ok res

/-! ### __init__.py: identify_license -/

def license_classifiers : List (String × String) :=
  [("License :: OSI Approved :: MIT License", "MIT"),
   ("License :: OSI Approved :: BSD License", "BSD"),
   ("License :: OSI Approved :: Apache Software License", "Apache"),
   ("License :: OSI Approved :: GNU General Public License (GPL)", "GPL"),
   ("License :: OSI Approved :: GNU General Public License v2 (GPLv2)",
    "GPLv2"),
   ("License :: OSI Approved :: GNU General Public License v2 or later (GPLv2+)",
    "GPLv2+"),
   ("License :: OSI Approved :: GNU General Public License v3 (GPLv3)",
    "GPLv3"),
   ("License :: OSI Approved :: GNU General Public License v3 or later (GPLv3+)",
    "GPLv3+"),
   ("License :: OSI Approved :: GNU Lesser General Public License v2 (LGPLv2)",
    "LGPLv2"),
   ("License :: OSI Approved :: GNU Lesser General Public License v2 or later (LGPLv2+)",
    "LGPLv2+"),
   ("License :: OSI Approved :: GNU Lesser General Public License v3 (LGPLv3)",
    "LGPLGv3"),
   ("License :: OSI Approved :: GNU Lesser General Public License v3 or later (LGPLv3+)",
    "LGPLv3+"),
   ("License :: OSI Approved :: GNU Library or Lesser General Public License (LGPL)",
    "LGPL")]

/-- The `for clf in metadata.get('Classifier', [])` scan: the first
classifier present in the table wins, else `'UNKNOWN'`. -/
def licenseFromClassifiers : List String → String
  | [] => "UNKNOWN"
  | c :: rest =>
    match strLookup license_classifiers c with
    | some v => v
    | none => licenseFromClassifiers rest

/-- `identify_license(metadata)`: the guard is
`('License' in metadata) and (metadata['License'][0].lower() != 'unknown')`
— note there is no non-emptiness test on the value. -/
def identify_license (md : Metadata) : String :=
  match mdLookup md "License" with
  | some (v, _) =>
    if pyLower v ≠ "unknown" then v
    else licenseFromClassifiers (mdGetList md "Classifier")
  | none => licenseFromClassifiers (mdGetList md "Classifier")

/-! ### __init__.py: PackageBuilder

The mutable builder state (`self.files`, `self.has_prefix_files`,
`self.py_record_extra`); the constructor arguments `python_version`,
`platform`, `bitness` are immutable and passed to the functions that read
them, and `self.build_no` is always `0`.  A produced tar member is a name,
its byte contents (as a `String`) and the mtime recorded in the member
header: `tf.add` stores the source file's filesystem mtime, while
`_add_to_tarball` uses a fresh `TarInfo`, whose mtime defaults to `0`. -/

structure TarEntry where
  name : String
  contents : String
  mtime : Nat
deriving DecidableEq, Repr

structure Builder where
  files : List String
  hasPrefixFiles : List String
  pyRecordExtra : List (String × String × Nat)
deriving DecidableEq, Repr

def initBuilder : Builder := ⟨[], [], []⟩

def condaPlaceholder : String := "/opt/anaconda1anaconda2anaconda3"

/-- The two-line launcher template (`script_template`), instantiated. -/
def scriptTemplate (module func interp : String) : String :=
  "#!" ++ interp ++ "\n"
  ++ "from " ++ module ++ " import " ++ func ++ "\n"
  ++ "if __name__ == '__main__':\n"
  ++ "    " ++ func ++ "()\n"

def sitePackagesPath (platform : Platform) (pythonVersion : String) : String :=
  if platform = Platform.win then "Lib/site-packages/"
  else "lib/python" ++ pythonVersion ++ "/site-packages/"

def scriptsPath (platform : Platform) : String :=
  if platform = Platform.win then "Scripts/" else "bin/"

/-- `PackageBuilder.record_file`. -/
def recordFile (b : Builder) (arcname : String) (hasPfx : Bool) : Builder :=
  { b with
    files := b.files ++ [arcname],
    hasPrefixFiles :=
      if hasPfx then b.hasPrefixFiles ++ [arcname] else b.hasPrefixFiles }

def recordFiles (b : Builder) (ps : List String) : Builder :=
  ps.foldl (fun b2 p => recordFile b2 p false) b

/-- The files directly inside one directory listing, as walked by `os.walk`
(the current directory's `filenames`, joined onto `arc` and normalized). -/
def walkChildrenFiles (arc : String) : FsChildren → List String
  | .nil => []
  | .cons n (.file _ _) rest => (arc ++ "/" ++ n) :: walkChildrenFiles arc rest
  | .cons _ (.dir _ _) rest => walkChildrenFiles arc rest

/-- The files contributed by recursing into each subdirectory, in listing
order, after the current level's files — the remainder of the `os.walk`
top-down traversal. -/
def walkChildrenSub (arc : String) : FsChildren → List String
  | .nil => []
  | .cons _ (.file _ _) rest => walkChildrenSub arc rest
  | .cons n (.dir _ cs) rest =>
    (walkChildrenFiles (arc ++ "/" ++ n) cs
      ++ walkChildrenSub (arc ++ "/" ++ n) cs)
      ++ walkChildrenSub arc rest

/-- `PackageBuilder.record_file_or_dir`: a directory records every file
under it (via `os.walk`); a plain file records its arcname. -/
def recordFileOrDir (b : Builder) (arcname : String) (node : FsNode) :
    Builder :=
  match node with
  | .dir _ cs =>
    recordFiles b (walkChildrenFiles arcname cs ++ walkChildrenSub arcname cs)
  | .file _ _ => recordFile b arcname false

/-! `tf.add(src, arcname, filter=...)`: adds a member for `src` itself and,
for a directory, recursively for everything below it; a member whose name
the filter rejects is skipped together with its subtree.  Directory members
carry empty contents. -/

mutual
def tarAddNode (keep : String → Bool) (arcname : String) :
    FsNode → List TarEntry
  | .file c m => if keep arcname then [⟨arcname, c, m⟩] else []
  | .dir m cs =>
    if keep arcname then ⟨arcname, "", m⟩ :: tarAddChildren keep arcname cs
    else []
def tarAddChildren (keep : String → Bool) (arcname : String) :
    FsChildren → List TarEntry
  | .nil => []
  | .cons n t rest =>
    tarAddNode keep (arcname ++ "/" ++ n) t ++ tarAddChildren keep arcname rest
end

/-- The data of one extracted wheel as the builder consumes it:
the top-level tree entries, the parsed `METADATA` mapping, the parsed rows
of `<dist-info>/RECORD` (a CSV row is its first column plus the remaining
columns), and the parsed `console_scripts` section of
`<dist-info>/entry_points.txt` when that file exists (option names as
written in the file, before the parser's option transform). -/
structure WheelModel where
  topLevel : List (String × FsNode)
  metadata : Metadata
  recordRows : List (String × List String)
  entryPoints : Option (List (String × String))

/-- The `for f in d.iterdir()` loop of `_add_data_dir`: each immediate
child of `<wheel>.data/data` is placed at the archive root under its own
name. -/
def addDataChildren (b : Builder) : FsChildren → Builder × List TarEntry
  | .nil => (b, [])
  | .cons n t rest =>
    let es := tarAddNode (fun _ => true) n t
    let b2 := recordFileOrDir b n t
    let (b3, es2) := addDataChildren b2 rest
    (b3, es ++ es2)

/-- The `for d in src.iterdir()` loop of `_add_data_dir`: only a child
named `data` is supported; anything else raises `NotImplementedError`. -/
def addDataDirLoop (b : Builder) : FsChildren →
    Except String (Builder × List TarEntry)
  | .nil => .ok (b, [])
  | .cons n t rest =>
    if n = "data" then
      match t with
      | .file _ _ => .error "NotADirectoryError"
      | .dir _ gcs =>
        let (b2, es) := addDataChildren b gcs
        match addDataDirLoop b2 rest with
        | .error e => .error e
        | .ok (b3, es2) => .ok (b3, es ++ es2)
    else .error (n ++ " under data dir")

/-- `PackageBuilder._add_data_dir`. -/
def addDataDir (b : Builder) (node : FsNode) :
    Except String (Builder × List TarEntry) :=
  match node with
  | .file _ _ => .error "NotADirectoryError"
  | .dir _ cs => addDataDirLoop b cs

/-- `PackageBuilder.add_module` inner loop over `unpacked.iterdir()`. -/
def addModuleLoop (pythonVersion : String) (platform : Platform)
    (b : Builder) : List (String × FsNode) →
    Except String (Builder × List TarEntry)
  | [] => .ok (b, [])
  | (name, node) :: rest =>
    if pyEndsWith name ".data" then
      match addDataDir b node with
      | .error e => .error e
      | .ok (b2, es) =>
        match addModuleLoop pythonVersion platform b2 rest with
        | .error e => .error e
        | .ok (b3, es2) => .ok (b3, es ++ es2)
    else
      let dst := sitePackagesPath platform pythonVersion ++ name
      if pyEndsWith name ".dist-info" then
        let es := tarAddNode (fun nm => !(pyEndsWith nm "RECORD")) dst node
        let b2 := recordFileOrDir b dst node
        match addModuleLoop pythonVersion platform b2 rest with
        | .error e => .error e
        | .ok (b3, es2) => .ok (b3, es ++ es2)
      else
        let es := tarAddNode (fun _ => true) dst node
        let b2 := recordFileOrDir b dst node
        match addModuleLoop pythonVersion platform b2 rest with
        | .error e => .error e
        | .ok (b3, es2) => .ok (b3, es ++ es2)

/-- `PackageBuilder._py_record_file`: `digestFn` abstracts
`base64.urlsafe_b64encode(hashlib.sha256(contents).digest()).rstrip('=')`;
the recorded length is the byte length of the contents. -/
def pyRecordFile (digestFn : String → String) (b : Builder)
    (relpath contents : String) : Builder :=
  { b with pyRecordExtra :=
      b.pyRecordExtra
        ++ [(relpath, "sha256=" ++ digestFn contents, contents.utf8ByteSize)] }

/-- `PackageBuilder._write_script_unix`. -/
def writeScriptUnix (digestFn : String → String) (platform : Platform)
    (b : Builder) (name contents : String) : Builder × List TarEntry :=
  let path := scriptsPath platform ++ name
  let b2 := recordFile b path true
  let b3 := pyRecordFile digestFn b2 path contents
  (b3, [⟨path, contents, 0⟩])

/-- `PackageBuilder._write_script_windows`: `findExe` abstracts
`win_cli_launchers.find_exe` composed with reading the launcher file — it
returns the launcher bytes and the launcher file's mtime for an
architecture tag. -/
def writeScriptWindows (digestFn : String → String)
    (findExe : String → String × Nat) (platform : Platform) (bitness : String)
    (b : Builder) (name contents : String) : Builder × List TarEntry :=
  let (b2, es1) := writeScriptUnix digestFn platform b (name ++ "-script.py")
    contents
  let arch := if bitness = "64" then "x64" else "x86"
  let (exeBytes, exeMtime) := findExe arch
  let dst := scriptsPath platform ++ name ++ ".exe"
  let b3 := recordFile b2 dst false
  let b4 := pyRecordFile digestFn b3 dst exeBytes
  (b4, es1 ++ [⟨dst, exeBytes, exeMtime⟩])

/-- The option-name transform the entry-point parser actually applies.
`CaseSensitiveContextParser` assigns `optionxfrom = staticmethod(str)` —
but the `configparser.ConfigParser` hook is spelled `optionxform`, so the
assignment creates an unused attribute and the inherited default,
`str.lower`, stays in effect: option names are lower-cased when read. -/
def optionxform_effective (s : String) : String := pyLower s

/-- The `for name, ep in cp['console_scripts'].items()` loop of
`create_scripts` (names already transformed by the parser). -/
def createScriptsLoop (digestFn : String → String)
    (findExe : String → String × Nat) (platform : Platform) (bitness : String)
    (b : Builder) : List (String × String) →
    Except String (Builder × List TarEntry)
  | [] => .ok (b, [])
  | (name, ep) :: rest =>
    match pySplitChar ep ':' with
    | [module, func] =>
      let s := scriptTemplate module func (condaPlaceholder ++ "/bin/python")
      let (b2, es) :=
        if platform = Platform.win then
          writeScriptWindows digestFn findExe platform bitness b name s
        else writeScriptUnix digestFn platform b name s
      match createScriptsLoop digestFn findExe platform bitness b2 rest with
      | .error e => .error e
      | .ok (b3, es2) => .ok (b3, es ++ es2)
    | _ => .error ("Bad entry point: " ++ ep)

/-- `PackageBuilder.create_scripts`: nothing happens when
`entry_points.txt` is absent; otherwise every `console_scripts` entry
produces a launcher (an entry-point value must contain exactly one colon,
i.e. split into exactly two parts). -/
def createScripts (digestFn : String → String)
    (findExe : String → String × Nat) (platform : Platform) (bitness : String)
    (w : WheelModel) (b : Builder) : Except String (Builder × List TarEntry) :=
  match w.entryPoints with
  | none => .ok (b, [])
  | some eps =>
    createScriptsLoop digestFn findExe platform bitness b
      (eps.map (fun p => (optionxform_effective p.1, p.2)))

/-! ### __init__.py: PackageBuilder.write_pep376_record -/

/-- The prefix that leads from site-packages back to the archive root
(`prefix_from_site_pkgs` in the source): two levels up on Windows
(`Lib/site-packages/`), three otherwise
(`lib/python{version}/site-packages/`). -/
def relFromSitePkgs (platform : Platform) : String :=
  if platform = Platform.win then "../.." else "../../.."

/-- The rewrite condition of the RECORD loop body:
`len(path_parts) > 2 and path_parts[0].endswith('.data') and
path_parts[1] == 'data'`. -/
def pep376DataCond (path : String) : Bool :=
  let parts := pySplitChar path '/'
  decide (2 < parts.length) && pyEndsWith (parts.headD "") ".data"
    && (parts.getD 1 "") == "data"

/-- One iteration of the RECORD-rewriting loop: a row whose path lies under
the `.data/data/` subtree has that path replaced by
`posixpath.join(prefix_from_site_pkgs, *path_parts[2:])`; all other rows
pass through unchanged.  (`posixpath.join` of relative components is
`/`-intercalation.) -/
def pep376TransformRow (platform : Platform) (row : String × List String) :
    String × List String :=
  if pep376DataCond row.1 then
    (String.intercalate "/"
      (relFromSitePkgs platform :: (pySplitChar row.1 '/').drop 2), row.2)
  else row

/-- One CSV line as `csv.writer` emits it for fields containing no comma,
quote or newline — the shape of every row here (`\r\n` is the writer's
default line terminator). -/
def csvLine (row : String × List String) : String :=
  String.intercalate "," (row.1 :: row.2) ++ "\r\n"

/-- `PackageBuilder.write_pep376_record`: the wheel's RECORD rows pass
through the rewrite loop, then one extra row is appended per generated
script / launcher (path joined under `prefix_from_site_pkgs`, hash
descriptor, byte length); the result is placed at
`<site-packages>/<dist-info>/RECORD` (the dist-info name comes from
`find_dist_info`, whose failure propagates). -/
def writePep376Record (pythonVersion : String) (platform : Platform)
    (w : WheelModel) (b : Builder) : Except String TarEntry :=
  match findDistInfo w.topLevel with
  | .error e => .error e
  | .ok (diName, _) =>
    let rows1 := w.recordRows.map (pep376TransformRow platform)
    let rows2 := b.pyRecordExtra.map
      (fun r => (relFromSitePkgs platform ++ "/" ++ r.1,
                 [r.2.1, toString r.2.2]))
    let contents := String.join ((rows1 ++ rows2).map csvLine)
    .ok ⟨sitePackagesPath platform pythonVersion ++ diName ++ "/RECORD",
         contents, 0⟩

/-! ### __init__.py: PackageBuilder.write_index -/

def jsonQ (s : String) : String := "\"" ++ s ++ "\""

/-- The `json.dumps(ix, indent=2, sort_keys=True)` output for the index
dict (its keys are already in sorted order in the source literal).  String
escaping is not modelled: the values occurring here never need escapes. -/
def indexJsonText (pythonVersion : String) (platform : Platform)
    (bitness : String) (condaReqs : List String) (lic nm ver : String) :
    String :=
  let pyNoDot := pyRemoveChar pythonVersion '.'
  let depends := ("python " ++ pythonVersion ++ "*") :: condaReqs
  "\x7b\n"
  ++ "  " ++ jsonQ "arch" ++ ": "
    ++ jsonQ (if bitness = "64" then "x86_64" else "x86") ++ ",\n"
  ++ "  " ++ jsonQ "build" ++ ": " ++ jsonQ ("py" ++ pyNoDot ++ "_0") ++ ",\n"
  ++ "  " ++ jsonQ "build_number" ++ ": 0,\n"
  ++ "  " ++ jsonQ "depends" ++ ": [\n"
  ++ String.intercalate ",\n" (depends.map (fun d => "    " ++ jsonQ d))
  ++ "\n  ],\n"
  ++ "  " ++ jsonQ "license" ++ ": " ++ jsonQ lic ++ ",\n"
  ++ "  " ++ jsonQ "name" ++ ": " ++ jsonQ nm ++ ",\n"
  ++ "  " ++ jsonQ "platform" ++ ": " ++ jsonQ (platformName platform) ++ ",\n"
  ++ "  " ++ jsonQ "subdir" ++ ": "
    ++ jsonQ (platformName platform ++ "-" ++ bitness) ++ ",\n"
  ++ "  " ++ jsonQ "version" ++ ": " ++ jsonQ ver ++ "\n"
  ++ "\x7d"

/-- `PackageBuilder.write_index` (`build_no` is always 0): translates
`Requires-Dist` via `requires_dist_to_conda_requirements`, resolves the
license, and emits `info/index.json`; `metadata['Name'][0]` and
`metadata['Version'][0]` raise `KeyError` when the field is missing. -/
def writeIndex (parse : String → Except String MarkerExpr)
    (pythonVersion : String) (platform : Platform) (bitness : String)
    (w : WheelModel) : Except String TarEntry :=
  let reqs := mdGetList w.metadata "Requires-Dist"
  match requires_dist_to_conda_requirements parse reqs pythonVersion
      (platformName platform) bitness with
  | .error e => .error e
  | .ok condaReqs =>
    let lic := identify_license w.metadata
    match mdLookup w.metadata "Name" with
    | none => .error "KeyError: Name"
    | some (nm, _) =>
      match mdLookup w.metadata "Version" with
      | none => .error "KeyError: Version"
      | some (ver, _) =>
        .ok ⟨"info/index.json",
             indexJsonText pythonVersion platform bitness condaReqs lic nm ver,
             0⟩

/-! ### __init__.py: the two plaintext manifests and build -/

/-- `PackageBuilder.write_has_prefix_list`. -/
def writeHasPrefixList (b : Builder) : TarEntry :=
  ⟨"info/has_prefix",
   String.intercalate "\n"
     (b.hasPrefixFiles.map (fun p => condaPlaceholder ++ " text " ++ p)),
   0⟩

/-- `PackageBuilder.write_files_list`. -/
def writeFilesList (b : Builder) : TarEntry :=
  ⟨"info/files", String.intercalate "\n" b.files, 0⟩

/-- `PackageBuilder.build`: the six steps in order, producing the final
builder state and the tar members in the order they are written to the
archive stream. -/
def buildSteps (parse : String → Except String MarkerExpr)
    (digestFn : String → String) (findExe : String → String × Nat)
    (w : WheelModel) (pythonVersion : String) (platform : Platform)
    (bitness : String) : Except String (Builder × List TarEntry) :=
  match addModuleLoop pythonVersion platform initBuilder w.topLevel with
  | .error e => .error e
  | .ok (b1, es1) =>
    match createScripts digestFn findExe platform bitness w b1 with
    | .error e => .error e
    | .ok (b2, es2) =>
      match writePep376Record pythonVersion platform w b2 with
      | .error e => .error e
      | .ok recEntry =>
        match writeIndex parse pythonVersion platform bitness w with
        | .error e => .error e
        | .ok ixEntry =>
          .ok (b2, es1 ++ es2
            ++ [recEntry, ixEntry, writeHasPrefixList b2, writeFilesList b2])

/-! Projections of a build result, defaulting to empty on failure. -/

def filesOfR (r : Except String (Builder × List TarEntry)) : List String :=
  match r with
  | .ok (b, _) => b.files
  | .error _ => []

def hasPrefixOfR (r : Except String (Builder × List TarEntry)) :
    List String :=
  match r with
  | .ok (b, _) => b.hasPrefixFiles
  | .error _ => []

def entriesOfR (r : Except String (Builder × List TarEntry)) :
    List TarEntry :=
  match r with
  | .ok (_, es) => es
  | .error _ => []

def isOkR (r : Except String (Builder × List TarEntry)) : Bool :=
  match r with
  | .ok _ => true
  | .error _ => false


/-! ### Auxiliary definitions used only in theorem statements -/

/-- The marker clause `r.split(';', 1)[1]` of a requirement entry, when the
entry contains a semicolon. -/
def reqMarkerOf (r : String) : Option String :=
  if pyContainsChar r ';' then
    some (String.intercalate ";" (pySplitChar r ';').tail)
  else none

/-- The requirement part `r.split(';', 1)[0]` (the whole entry when there
is no semicolon). -/
def reqBaseOf (r : String) : String :=
  if pyContainsChar r ';' then (pySplitChar r ';').headD "" else r

/-- Whether the translator keeps an entry: kept when it has no marker, or
when its marker evaluates to true. -/
def reqKeep (parse : String → Except String MarkerExpr)
    (pythonVersion platform bitness : String) (r : String) : Bool :=
  match reqMarkerOf r with
  | none => true
  | some m =>
    match eval_env_marker parse m pythonVersion platform bitness with
    | .ok b => b
    | .error _ => false

/-- Removal of the literal parenthesis characters. -/
def stripParens (s : String) : String :=
  pyRemoveChar (pyRemoveChar s '(') ')'

/-! ### Claim theorems -/

/-- C1, counterexample: for the non-Windows RECORD row
`mypkg.data/data/share/x,sha256=abc,10` the code produces the path
`../../../share/x` (three parent steps), not `../../share/x` as the claim
states. -/
theorem c1_counterexample :
    pep376TransformRow Platform.linux
      ("mypkg.data/data/share/x", ["sha256=abc", "10"])
      ≠ ("../../share/x", ["sha256=abc", "10"])
    ∧ pep376TransformRow Platform.linux
      ("mypkg.data/data/share/x", ["sha256=abc", "10"])
      = ("../../../share/x", ["sha256=abc", "10"]) := by
  constructor
  · decide
  · decide

/-- C1 (amended): a RECORD row with path `mypkg.data/data/share/x` is
rewritten to `../../../share/x` on non-Windows targets (and to
`../../share/x` on Windows), leaving the hash and size columns unchanged;
rows whose path is not under a `.data/data/` subtree pass through
unchanged. -/
theorem c1_record_rewrite_amended :
    (∀ (p : Platform) (hsh sz : String), p ≠ Platform.win →
      pep376TransformRow p ("mypkg.data/data/share/x", [hsh, sz])
        = ("../../../share/x", [hsh, sz]))
    ∧ (∀ hsh sz : String,
      pep376TransformRow Platform.win ("mypkg.data/data/share/x", [hsh, sz])
        = ("../../share/x", [hsh, sz]))
    ∧ ∀ (p : Platform) (row : String × List String),
      pep376DataCond row.1 = false → pep376TransformRow p row = row := by
  refine ⟨?_, ?_, ?_⟩
  · intro p hsh sz hp
    cases p with
    | win => exact absurd rfl hp
    | linux => rfl
    | osx => rfl
  · intro hsh sz
    rfl
  · intro p row h
    simp [pep376TransformRow, h]

/-- C1, witness for the amended theorem at concrete rows. -/
theorem c1_record_rewrite_amended_witness :
    pep376TransformRow Platform.linux
      ("mypkg.data/data/share/x", ["sha256=h1", "10"])
      = ("../../../share/x", ["sha256=h1", "10"])
    ∧ pep376TransformRow Platform.win
      ("mypkg.data/data/share/x", ["sha256=h1", "10"])
      = ("../../share/x", ["sha256=h1", "10"])
    ∧ pep376TransformRow Platform.osx ("mypkg/core.py", ["sha256=h2", "20"])
      = ("mypkg/core.py", ["sha256=h2", "20"]) :=
  ⟨c1_record_rewrite_amended.1 Platform.linux "sha256=h1" "10" (by decide),
   c1_record_rewrite_amended.2.1 "sha256=h1" "10",
   c1_record_rewrite_amended.2.2 Platform.osx ("mypkg/core.py",
     ["sha256=h2", "20"]) (by decide)⟩

/-- C2, counterexample: the PEP 508 marker variable `sys_platform` is a
bare name, which `EnvMarkerNameFiller.visit_Name` rejects — evaluating
`sys_platform == 'linux'` against a linux target raises
`ValueError("Unexpected name: sys_platform")` instead of returning true. -/
theorem c2_counterexample :
    eval_env_marker markerParse "sys_platform == 'linux'" "3.6" "linux" "64"
      = .error "Unexpected name: sys_platform"
    ∧ eval_env_marker markerParse "sys_platform == 'linux'" "3.6" "linux" "64"
      ≠ .ok true := by
  constructor
  · decide
  · decide

/-- C2 (amended): the evaluator recognizes the attribute form
`sys.platform`, so `sys.platform == 'linux'` evaluates to true against a
linux target, and `python_version < '3'` evaluates to false against a
target with Python version `3.6`. -/
theorem c2_marker_eval_amended :
    eval_env_marker markerParse "sys.platform == 'linux'" "3.6" "linux" "64"
      = .ok true
    ∧ eval_env_marker markerParse "python_version < '3'" "3.6" "linux" "64"
      = .ok false := by
  constructor
  · decide
  · decide

/-- A minimal wheel whose only console_scripts entry point is written with
upper-case letters: `MyTool = mypkg.cli:main`. -/
def wheelC4 : WheelModel :=
  { topLevel := [("mypkg-1.0.dist-info", FsNode.dir 1
      (FsChildren.cons "METADATA" (FsNode.file "Name: mypkg\n" 1)
        (FsChildren.cons "RECORD" (FsNode.file "" 1)
          (FsChildren.cons "entry_points.txt"
            (FsNode.file "[console_scripts]\nMyTool = mypkg.cli:main\n" 1)
            FsChildren.nil))))],
    metadata := [("Name", ("mypkg", [])), ("Version", ("1.0", []))],
    recordRows := [],
    entryPoints := some [("MyTool", "mypkg.cli:main")] }

def buildC4 : Except String (Builder × List TarEntry) :=
  buildSteps markerParse (fun _ => "d4") (fun _ => ("EXE4", 4)) wheelC4 "3.6"
    Platform.linux "64"

/-- C4: the claim is right about the intent but the code lower-cases entry
point names.  `CaseSensitiveContextParser` misspells the `optionxform`
hook as `optionxfrom`, so the inherited `str.lower` transform stays
active: building a wheel whose entry point is `MyTool = mypkg.cli:main`
produces `bin/mytool`, not `bin/MyTool`. -/
theorem c4_case_preservation_violated :
    ("bin/mytool" ∈ filesOfR buildC4)
    ∧ ("bin/MyTool" ∉ filesOfR buildC4)
    ∧ (∃ e ∈ entriesOfR buildC4, e.name = "bin/mytool")
    ∧ ¬(∃ e ∈ entriesOfR buildC4, e.name = "bin/MyTool") := by
  refine ⟨by decide, by decide, ?_, ?_⟩
  · decide
  · decide

/-- C5, counterexample: a wheel whose License metadata value is the empty
string gets the empty string back verbatim (the code never tests for
non-emptiness), contradicting the claim that it does not. -/
theorem c5_counterexample :
    identify_license [("License", ("", []))] = "" := by
  decide

/-- C5 (amended): the first License value is returned verbatim whenever
the field is present and its value is not case-insensitively `unknown` —
including when that value is the empty string; otherwise the first
Classifier entry found in the fixed table determines the result; otherwise
the result is `UNKNOWN`. -/
theorem c5_license_amended :
    (∀ (md : Metadata) (v : String) (rest : List String),
      mdLookup md "License" = some (v, rest) → pyLower v ≠ "unknown" →
      identify_license md = v)
    ∧ (∀ md : Metadata, mdLookup md "License" = none →
      identify_license md = licenseFromClassifiers (mdGetList md "Classifier"))
    ∧ (∀ (md : Metadata) (v : String) (rest : List String),
      mdLookup md "License" = some (v, rest) → pyLower v = "unknown" →
      identify_license md = licenseFromClassifiers (mdGetList md "Classifier"))
    ∧ (∀ (pre : List String) (c val : String) (rest2 : List String),
      (∀ c2 ∈ pre, strLookup license_classifiers c2 = none) →
      strLookup license_classifiers c = some val →
      licenseFromClassifiers (pre ++ c :: rest2) = val)
    ∧ ∀ cls : List String,
      (∀ c ∈ cls, strLookup license_classifiers c = none) →
      licenseFromClassifiers cls = "UNKNOWN" := by
  refine ⟨?_, ?_, ?_, ?_, ?_⟩
  · intro md v rest h hne
    simp [identify_license, h, hne]
  · intro md h
    simp [identify_license, h]
  · intro md v rest h hv
    simp [identify_license, h, hv]
  · intro pre c val rest2 hpre hc
    induction pre with
    | nil => simp [licenseFromClassifiers, hc]
    | cons p ps ih =>
      have hp : strLookup license_classifiers p = none := hpre p (by simp)
      simp only [List.cons_append, licenseFromClassifiers, hp]
      exact ih (fun c2 hc2 => hpre c2 (by simp [hc2]))
  · intro cls hcls
    induction cls with
    | nil => rfl
    | cons c cs ih =>
      have hc : strLookup license_classifiers c = none := hcls c (by simp)
      simp only [licenseFromClassifiers, hc]
      exact ih (fun c2 hc2 => hcls c2 (by simp [hc2]))

/-- C5, witness for the amended theorem: a normal verbatim value, the
empty-string verbatim value, a classifier-table hit after a miss, and the
final `UNKNOWN` fallback. -/
theorem c5_license_amended_witness :
    identify_license [("License", ("MIT License", []))] = "MIT License"
    ∧ identify_license [("License", ("", [])),
        ("Classifier", ("License :: OSI Approved :: MIT License", []))] = ""
    ∧ licenseFromClassifiers
        ["Programming Language :: Python :: 3",
         "License :: OSI Approved :: BSD License"] = "BSD"
    ∧ licenseFromClassifiers ["Programming Language :: Python :: 3"]
        = "UNKNOWN" :=
  ⟨c5_license_amended.1 _ "MIT License" [] (by decide) (by decide),
   c5_license_amended.1 _ "" [] (by decide) (by decide),
   c5_license_amended.2.2.2.1 ["Programming Language :: Python :: 3"]
     "License :: OSI Approved :: BSD License" "BSD" [] (by decide) (by decide),
   c5_license_amended.2.2.2.2 ["Programming Language :: Python :: 3"]
     (by decide)⟩

/-- C6: a wheel whose Requires-Python is `>=3.6` keeps only `3.6` out of
`['3.6', '2.7']`; a wheel without Requires-Python whose WHEEL Tag values
all start `py2-` keeps only `2.7`. -/
theorem c6_filter_pythons :
    (∀ (md wheelMd : Metadata) (rest : List String),
      mdLookup md "Requires-Python" = some (">=3.6", rest) →
      filter_compatible_pythons md wheelMd ["3.6", "2.7"] = .ok ["3.6"])
    ∧ ∀ (md wheelMd : Metadata) (t0 : String) (ts : List String),
      mdLookup md "Requires-Python" = none →
      mdLookup wheelMd "Tag" = some (t0, ts) →
      (∀ t ∈ t0 :: ts, pyTagOf t = "py2") →
      filter_compatible_pythons md wheelMd ["3.6", "2.7"] = .ok ["2.7"] := by
  constructor
  · intro md wheelMd rest h
    simp +decide [filter_compatible_pythons, h]
  · intro md wheelMd t0 ts h1 h2 hall
    have e0 : pyTagOf t0 = "py2" := hall t0 (by simp)
    have hp2 : ((t0 :: ts).map pyTagOf).all (· == "py2") = true := by
      rw [List.all_eq_true]
      intro x hx
      rcases List.mem_map.1 hx with ⟨t, ht, rfl⟩
      simp [hall t ht]
    have hp3 : ((t0 :: ts).map pyTagOf).all (· == "py3") = false := by
      simp +decide [List.all_cons, e0]
    simp +decide only [filter_compatible_pythons, h1, h2, hp2, hp3]

/-- C6, witness at a concrete metadata mapping for each of the two
guarantees. -/
theorem c6_filter_pythons_witness :
    filter_compatible_pythons [("Requires-Python", (">=3.6", []))]
      [("Tag", ("py3-none-any", []))] ["3.6", "2.7"] = .ok ["3.6"]
    ∧ filter_compatible_pythons [("Name", ("x", []))]
      [("Tag", ("py2-none-any", []))] ["3.6", "2.7"] = .ok ["2.7"] :=
  ⟨c6_filter_pythons.1 _ _ [] (by decide),
   c6_filter_pythons.2 _ _ "py2-none-any" [] (by decide) (by decide)
     (by decide)⟩

/-- C7: when every present marker evaluates without error, the translator
returns exactly the input entries whose marker is absent or true, in input
order, each with the part before the first semicolon kept and all literal
parentheses removed — no deduplication (the result is a filter-then-map of
the input); in particular `foo (>=1.0)` becomes `foo >=1.0`. -/
theorem c7_requirement_translation :
    (∀ (parse : String → Except String MarkerExpr)
      (pythonVersion platform bitness : String) (reqs : List String),
      (∀ r ∈ reqs, ∀ m, reqMarkerOf r = some m →
        ∃ b, eval_env_marker parse m pythonVersion platform bitness = .ok b) →
      requires_dist_to_conda_requirements parse reqs pythonVersion platform
          bitness
        = .ok ((reqs.filter (reqKeep parse pythonVersion platform bitness)).map
            (fun r => stripParens (reqBaseOf r))))
    ∧ ∀ (parse : String → Except String MarkerExpr)
      (pythonVersion platform bitness : String),
      requires_dist_to_conda_requirements parse ["foo (>=1.0)"] pythonVersion
        platform bitness = .ok ["foo >=1.0"] := by
  constructor
  · intro parse pv pl bt reqs hok
    induction reqs with
    | nil => rfl
    | cons r rest ih =>
      have ihr := ih (fun r2 h2 => hok r2 (by simp [h2]))
      by_cases hc : pyContainsChar r ';' = true
      · have hm : reqMarkerOf r
            = some (String.intercalate ";" (pySplitChar r ';').tail) := by
          simp [reqMarkerOf, hc]
        rcases hok r (by simp) _ hm with ⟨b, hb⟩
        cases b with
        | true =>
          have hkeep : reqKeep parse pv pl bt r = true := by
            simp [reqKeep, hm, hb]
          simp [requires_dist_to_conda_requirements, hc, hb, ihr,
            List.filter_cons, hkeep, stripParens, reqBaseOf]
        | false =>
          have hkeep : reqKeep parse pv pl bt r = false := by
            simp [reqKeep, hm, hb]
          simp [requires_dist_to_conda_requirements, hc, hb, ihr,
            List.filter_cons, hkeep]
      · have hc2 : pyContainsChar r ';' = false := by
          simpa using hc
        have hkeep : reqKeep parse pv pl bt r = true := by
          simp [reqKeep, reqMarkerOf, hc2]
        simp [requires_dist_to_conda_requirements, hc2, ihr, List.filter_cons,
          hkeep, stripParens, reqBaseOf]
  · intro parse pv pl bt
    rfl

/-- C7, witness: a parenthesized no-marker entry is kept and stripped, a
false-marker entry (`bar;python_version < '3'`, written without a space
after the semicolon so the split-off marker is exactly
`python_version < '3'`) is dropped, order is preserved and the duplicate
is kept twice. -/
theorem c7_requirement_translation_witness :
    requires_dist_to_conda_requirements markerParse
      ["foo (>=1.0)", "bar;python_version < '3'", "foo (>=1.0)"]
      "3.6" "linux" "64" = .ok ["foo >=1.0", "foo >=1.0"] :=
  (c7_requirement_translation.1 markerParse "3.6" "linux" "64"
    ["foo (>=1.0)", "bar;python_version < '3'", "foo (>=1.0)"]
    (by decide)).trans (by decide)

/-- Helper for C8: `find_dist_info` raises exactly when no top-level name
ends in `.dist-info`. -/
theorem findDistInfo_error_iff (entries : List (String × FsNode)) :
    (∃ e, findDistInfo entries = .error e)
      ↔ ∀ p ∈ entries, pyEndsWith p.1 ".dist-info" = false := by
  induction entries with
  | nil => simp [findDistInfo]
  | cons p rest ih =>
    obtain ⟨n, t⟩ := p
    by_cases h : pyEndsWith n ".dist-info" = true
    · simp [findDistInfo, h]
    · have h2 : pyEndsWith n ".dist-info" = false := by simpa using h
      simp [findDistInfo, h2, ih]

/-- Helper for C8: `find_dist_info` returns the first matching entry,
whatever node it is. -/
theorem findDistInfo_first (pre : List (String × FsNode)) (n : String)
    (t : FsNode) (rest : List (String × FsNode))
    (hpre : ∀ p ∈ pre, pyEndsWith p.1 ".dist-info" = false)
    (hn : pyEndsWith n ".dist-info" = true) :
    findDistInfo (pre ++ (n, t) :: rest) = .ok (n, t) := by
  induction pre with
  | nil => simp [findDistInfo, hn]
  | cons p ps ih =>
    obtain ⟨m, u⟩ := p
    have hp := hpre (m, u) (by simp)
    simp only [List.cons_append, findDistInfo]
    simp only at hp
    rw [hp]
    simpa using ih (fun q hq => hpre q (by simp [hq]))

/-- Helper for C8: the `check` scan errors whenever some entry matches the
`.dist-info` suffix but is not a directory. -/
theorem checkEntries_error_nondir (entries : List (String × FsNode)) :
    ∀ hasDI hasData : Bool,
    (∃ p ∈ entries,
      pyEndsWith p.1 ".dist-info" = true ∧ isDirNode p.2 = false) →
    ∃ e, checkEntries entries hasDI hasData = .error e := by
  induction entries with
  | nil => simp
  | cons p rest ih =>
    intro hasDI hasData hbad
    obtain ⟨n, t⟩ := p
    cases hce : checkEntry n (isDirNode t) hasDI hasData with
    | error e => exact ⟨e, by simp [checkEntries, hce]⟩
    | ok v =>
      obtain ⟨d2, a2⟩ := v
      rcases hbad with ⟨q, hq, hqe, hqd⟩
      rcases List.mem_cons.1 hq with hq1 | hq2
      · exfalso
        rw [hq1] at hqe hqd
        simp only at hqe hqd
        rw [hqd] at hce
        simp [checkEntry, hqe] at hce
      · rcases ih d2 a2 ⟨q, hq2, hqe, hqd⟩ with ⟨e, he⟩
        exact ⟨e, by simp [checkEntries, hce, he]⟩

/-- Helper for C8: the `check` scan errors whenever the number of entries
matching the `.dist-info` suffix, plus one if a match was already seen,
reaches two. -/
theorem checkEntries_error_multi (entries : List (String × FsNode)) :
    ∀ hasDI hasData : Bool,
    2 ≤ (entries.filter (fun p => pyEndsWith p.1 ".dist-info")).length
        + (if hasDI then 1 else 0) →
    ∃ e, checkEntries entries hasDI hasData = .error e := by
  induction entries with
  | nil =>
    intro hasDI hasData hge
    cases hasDI <;> simp_all
  | cons p rest ih =>
    intro hasDI hasData hge
    obtain ⟨n, t⟩ := p
    cases hce : checkEntry n (isDirNode t) hasDI hasData with
    | error e => exact ⟨e, by simp [checkEntries, hce]⟩
    | ok v =>
      obtain ⟨d2, a2⟩ := v
      have step : ∃ e, checkEntries rest d2 a2 = .error e := by
        apply ih
        by_cases hn : pyEndsWith n ".dist-info" = true
        · have hd : d2 = true := by
            cases hdir : isDirNode t <;> cases hDI : hasDI <;>
              rw [hdir] at hce <;> rw [hDI] at hge <;>
              simp [checkEntry, hn, hdir, hDI] at hce <;>
              try cases hdata : pyEndsWith n ".data" <;>
                cases hData : hasData <;> simp_all
          have hDI : hasDI = false := by
            cases hDI : hasDI
            · rfl
            · rw [hDI] at hce
              cases hdir : isDirNode t <;> rw [hdir] at hce <;>
                simp [checkEntry, hn] at hce
          rw [hDI] at hge
          rw [hd]
          have hglen : (((n, t) :: rest).filter
                (fun p => pyEndsWith p.1 ".dist-info")).length
              = ((rest).filter (fun p => pyEndsWith p.1 ".dist-info")).length
                + 1 := by
            simp [List.filter_cons, hn]
          rw [hglen] at hge
          simp at hge ⊢
          omega
        · have hn2 : pyEndsWith n ".dist-info" = false := by simpa using hn
          have hd : d2 = hasDI := by
            cases hdata : pyEndsWith n ".data" <;>
              cases hdir : isDirNode t <;> cases hData : hasData <;>
              rw [hdir] at hce <;>
              simp_all [checkEntry, hn2]
          rw [hd]
          simp only [List.filter_cons, hn2] at hge
          simpa using hge
      rcases step with ⟨e, he⟩
      exact ⟨e, by simp [checkEntries, hce, he]⟩

/-- C8, counterexample: a single `.dist-info` match that is a plain file,
not a directory — `find_dist_info` succeeds and returns it, where the claim
says the locate operation must fail with BadWheel. -/
theorem c8_counterexample :
    findDistInfo [("a.dist-info", FsNode.file "x" 0)]
      = .ok ("a.dist-info", FsNode.file "x" 0)
    ∧ isDirNode (FsNode.file "x" 0) = false := by
  constructor
  · rfl
  · rfl

/-- C8 (amended): `find_dist_info` itself fails (with BadWheel) exactly
when no top-level name matches the `.dist-info` suffix, and otherwise
returns the first matching entry even when it is not a directory or not
unique; the not-a-directory and more-than-one-match failures are raised by
`WheelContents.check`, which errors in both situations. -/
theorem c8_dist_info_amended :
    (∀ entries : List (String × FsNode),
      (∃ e, findDistInfo entries = .error e)
        ↔ ∀ p ∈ entries, pyEndsWith p.1 ".dist-info" = false)
    ∧ (∀ (pre : List (String × FsNode)) (n : String) (t : FsNode)
        (rest : List (String × FsNode)),
      (∀ p ∈ pre, pyEndsWith p.1 ".dist-info" = false) →
      pyEndsWith n ".dist-info" = true →
      findDistInfo (pre ++ (n, t) :: rest) = .ok (n, t))
    ∧ (∀ (entries : List (String × FsNode)) (wheelMd md : Metadata)
        (n : String) (t : FsNode),
      (n, t) ∈ entries → pyEndsWith n ".dist-info" = true →
      isDirNode t = false → ∃ e, check entries wheelMd md = .error e)
    ∧ ∀ (entries : List (String × FsNode)) (wheelMd md : Metadata),
      2 ≤ (entries.filter (fun p => pyEndsWith p.1 ".dist-info")).length →
      ∃ e, check entries wheelMd md = .error e := by
  refine ⟨findDistInfo_error_iff, findDistInfo_first, ?_, ?_⟩
  · intro entries wheelMd md n t hmem hend hdir
    rcases checkEntries_error_nondir entries false false
      ⟨(n, t), hmem, hend, hdir⟩ with ⟨e, he⟩
    exact ⟨e, by simp [check, he]⟩
  · intro entries wheelMd md hlen
    rcases checkEntries_error_multi entries false false (by simpa using hlen)
      with ⟨e, he⟩
    exact ⟨e, by simp [check, he]⟩

/-- C8, witness: no match errors; the first match is returned even after a
non-matching entry; `check` errors on a file-typed match and on two
matches. -/
theorem c8_dist_info_amended_witness :
    (∃ e, findDistInfo [("mypkg", FsNode.dir 0 FsChildren.nil)] = .error e)
    ∧ findDistInfo [("mypkg", FsNode.dir 0 FsChildren.nil),
        ("a.dist-info", FsNode.dir 0 FsChildren.nil)]
      = .ok ("a.dist-info", FsNode.dir 0 FsChildren.nil)
    ∧ (∃ e, check [("a.dist-info", FsNode.file "" 0)] [] [] = .error e)
    ∧ (∃ e, check [("a.dist-info", FsNode.dir 0 FsChildren.nil),
        ("b.dist-info", FsNode.dir 0 FsChildren.nil)] [] [] = .error e) :=
  ⟨(c8_dist_info_amended.1 [("mypkg", FsNode.dir 0 FsChildren.nil)]).2
     (by decide),
   c8_dist_info_amended.2.1 [("mypkg", FsNode.dir 0 FsChildren.nil)]
     "a.dist-info" (FsNode.dir 0 FsChildren.nil) [] (by decide) (by decide),
   c8_dist_info_amended.2.2.1 [("a.dist-info", FsNode.file "" 0)] [] []
     "a.dist-info" (FsNode.file "" 0) (List.Mem.head _) (by decide) rfl,
   c8_dist_info_amended.2.2.2 [("a.dist-info", FsNode.dir 0 FsChildren.nil),
     ("b.dist-info", FsNode.dir 0 FsChildren.nil)] [] [] (by decide)⟩

/-- The C10 invariant: the flagged-has-prefix paths form a sublist (subset
in the same relative order) of the recorded files. -/
def builderInv (b : Builder) : Prop :=
  List.Sublist b.hasPrefixFiles b.files

/-- `record_file` preserves the invariant: it appends to
`has_prefix_files` only when it appends the same path to `files`. -/
theorem builderInv_recordFile (b : Builder) (p : String) (flag : Bool)
    (h : builderInv b) : builderInv (recordFile b p flag) := by
  cases flag with
  | true => exact List.Sublist.append h (List.Sublist.refl [p])
  | false => exact h.trans (List.sublist_append_left b.files [p])

theorem builderInv_recordFiles (ps : List String) :
    ∀ b : Builder, builderInv b → builderInv (recordFiles b ps) := by
  induction ps with
  | nil => intro b h; exact h
  | cons p rest ih =>
    intro b h
    exact ih (recordFile b p false) (builderInv_recordFile b p false h)

theorem builderInv_recordFileOrDir (b : Builder) (arc : String)
    (node : FsNode) (h : builderInv b) :
    builderInv (recordFileOrDir b arc node) := by
  cases node with
  | file c m => exact builderInv_recordFile b arc false h
  | dir m cs => exact builderInv_recordFiles _ b h

theorem builderInv_addDataChildren :
    ∀ (cs : FsChildren) (b : Builder), builderInv b →
    builderInv (addDataChildren b cs).1
  | .nil, _, h => h
  | .cons n t rest, b, h =>
    builderInv_addDataChildren rest (recordFileOrDir b n t)
      (builderInv_recordFileOrDir b n t h)

theorem builderInv_addDataDirLoop :
    ∀ (cs : FsChildren) (b : Builder), builderInv b →
    ∀ (b2 : Builder) (es : List TarEntry),
      addDataDirLoop b cs = .ok (b2, es) → builderInv b2
  | .nil, b, h, _, _, he => by cases he; exact h
  | .cons n t rest, b, h, b2, es, he => by
    by_cases hn : n = "data"
    · cases t with
      | file c m => simp [addDataDirLoop, hn] at he
      | dir m gcs =>
        have hInvA : builderInv (addDataChildren b gcs).1 :=
          builderInv_addDataChildren gcs b h
        simp only [addDataDirLoop, hn, if_pos] at he
        cases hac : addDataChildren b gcs with
        | mk bA esA =>
          rw [hac] at he hInvA
          simp only at he hInvA
          cases hr : addDataDirLoop bA rest with
          | error e => rw [hr] at he; cases he
          | ok p =>
            obtain ⟨b3, es2⟩ := p
            rw [hr] at he
            cases he
            exact builderInv_addDataDirLoop rest bA hInvA _ _ hr
    · simp [addDataDirLoop, hn] at he

theorem builderInv_addDataDir (b : Builder) (node : FsNode)
    (h : builderInv b) (b2 : Builder) (es : List TarEntry)
    (he : addDataDir b node = .ok (b2, es)) : builderInv b2 := by
  cases node with
  | file c m => cases he
  | dir m cs => exact builderInv_addDataDirLoop cs b h b2 es he

theorem builderInv_addModuleLoop (pythonVersion : String)
    (platform : Platform) :
    ∀ (l : List (String × FsNode)) (b : Builder), builderInv b →
    ∀ (b2 : Builder) (es : List TarEntry),
      addModuleLoop pythonVersion platform b l = .ok (b2, es) →
      builderInv b2 := by
  intro l
  induction l with
  | nil => intro b h b2 es he; cases he; exact h
  | cons p rest ih =>
    intro b h b2 es he
    obtain ⟨name, node⟩ := p
    by_cases hd : pyEndsWith name ".data" = true
    · simp only [addModuleLoop, hd, if_pos] at he
      cases hdd : addDataDir b node with
      | error e => rw [hdd] at he; cases he
      | ok p1 =>
        obtain ⟨bA, esA⟩ := p1
        rw [hdd] at he
        simp only at he
        cases hr : addModuleLoop pythonVersion platform bA rest with
        | error e => rw [hr] at he; cases he
        | ok p2 =>
          obtain ⟨b3, es2⟩ := p2
          rw [hr] at he
          cases he
          exact ih bA (builderInv_addDataDir b node h bA esA hdd) _ _ hr
    · have hd2 : pyEndsWith name ".data" = false := by simpa using hd
      by_cases hdi : pyEndsWith name ".dist-info" = true
      · simp only [addModuleLoop, hd2, hdi, Bool.false_eq_true, if_false,
          if_pos] at he
        cases hr : addModuleLoop pythonVersion platform
            (recordFileOrDir b
              (sitePackagesPath platform pythonVersion ++ name) node) rest with
        | error e => rw [hr] at he; cases he
        | ok p2 =>
          obtain ⟨b3, es2⟩ := p2
          rw [hr] at he
          cases he
          exact ih _ (builderInv_recordFileOrDir b _ node h) _ _ hr
      · have hdi2 : pyEndsWith name ".dist-info" = false := by simpa using hdi
        simp only [addModuleLoop, hd2, hdi2, Bool.false_eq_true,
          if_false] at he
        cases hr : addModuleLoop pythonVersion platform
            (recordFileOrDir b
              (sitePackagesPath platform pythonVersion ++ name) node) rest with
        | error e => rw [hr] at he; cases he
        | ok p2 =>
          obtain ⟨b3, es2⟩ := p2
          rw [hr] at he
          cases he
          exact ih _ (builderInv_recordFileOrDir b _ node h) _ _ hr

theorem builderInv_writeScriptUnix (digestFn : String → String)
    (platform : Platform) (b : Builder) (name contents : String)
    (h : builderInv b) :
    builderInv (writeScriptUnix digestFn platform b name contents).1 := by
  have h2 := builderInv_recordFile b (scriptsPath platform ++ name) true h
  simpa [writeScriptUnix, pyRecordFile, builderInv] using h2

theorem builderInv_writeScriptWindows (digestFn : String → String)
    (findExe : String → String × Nat) (platform : Platform) (bitness : String)
    (b : Builder) (name contents : String) (h : builderInv b) :
    builderInv (writeScriptWindows digestFn findExe platform bitness b name
      contents).1 := by
  have h1 := builderInv_writeScriptUnix digestFn platform b
    (name ++ "-script.py") contents h
  have h2 := builderInv_recordFile _ (scriptsPath platform ++ name ++ ".exe")
    false h1
  simpa [writeScriptWindows, writeScriptUnix, pyRecordFile, recordFile,
    builderInv] using h2

theorem builderInv_createScriptsLoop (digestFn : String → String)
    (findExe : String → String × Nat) (platform : Platform)
    (bitness : String) :
    ∀ (eps : List (String × String)) (b : Builder), builderInv b →
    ∀ (b2 : Builder) (es : List TarEntry),
      createScriptsLoop digestFn findExe platform bitness b eps
        = .ok (b2, es) → builderInv b2 := by
  intro eps
  induction eps with
  | nil => intro b h b2 es he; cases he; exact h
  | cons p rest ih =>
    intro b h b2 es he
    obtain ⟨name, ep⟩ := p
    cases hsp : pySplitChar ep ':' with
    | nil => rw [createScriptsLoop, hsp] at he; cases he
    | cons m1 parts =>
      cases parts with
      | nil => rw [createScriptsLoop, hsp] at he; simp at he
      | cons m2 parts2 =>
        cases parts2 with
        | cons m3 parts3 => rw [createScriptsLoop, hsp] at he; simp at he
        | nil =>
          rw [createScriptsLoop, hsp] at he
          simp only at he
          by_cases hw : platform = Platform.win
          · rw [if_pos hw] at he
            cases hr : createScriptsLoop digestFn findExe platform bitness
                (writeScriptWindows digestFn findExe platform bitness b name
                  (scriptTemplate m1 m2 (condaPlaceholder ++ "/bin/python"))).1
                rest with
            | error e => rw [hr] at he; cases he
            | ok p2 =>
              obtain ⟨b3, es2⟩ := p2
              rw [hr] at he
              cases he
              exact ih _ (builderInv_writeScriptWindows digestFn findExe
                platform bitness b name _ h) _ _ hr
          · rw [if_neg hw] at he
            cases hr : createScriptsLoop digestFn findExe platform bitness
                (writeScriptUnix digestFn platform b name
                  (scriptTemplate m1 m2 (condaPlaceholder ++ "/bin/python"))).1
                rest with
            | error e => rw [hr] at he; cases he
            | ok p2 =>
              obtain ⟨b3, es2⟩ := p2
              rw [hr] at he
              cases he
              exact ih _ (builderInv_writeScriptUnix digestFn platform b name
                _ h) _ _ hr

theorem builderInv_createScripts (digestFn : String → String)
    (findExe : String → String × Nat) (platform : Platform)
    (bitness : String) (w : WheelModel) (b : Builder) (h : builderInv b)
    (b2 : Builder) (es : List TarEntry)
    (he : createScripts digestFn findExe platform bitness w b = .ok (b2, es)) :
    builderInv b2 := by
  cases heps : w.entryPoints with
  | none => rw [createScripts, heps] at he; cases he; exact h
  | some eps =>
    rw [createScripts, heps] at he
    exact builderInv_createScriptsLoop digestFn findExe platform bitness _ b h
      b2 es he

/-- C10: in every build, the paths written to `info/has_prefix` form a
sublist of the paths written to `info/files` — a subset appearing in the
same relative order — because `record_file` appends to `has_prefix_files`
only together with the same append to `files` (a failed build writes
neither list, covered by the empty projections). -/
theorem c10_has_prefix_sublist (parse : String → Except String MarkerExpr)
    (digestFn : String → String) (findExe : String → String × Nat)
    (w : WheelModel) (pythonVersion : String) (platform : Platform)
    (bitness : String) :
    List.Sublist
      (hasPrefixOfR
        (buildSteps parse digestFn findExe w pythonVersion platform bitness))
      (filesOfR
        (buildSteps parse digestFn findExe w pythonVersion platform
          bitness)) := by
  have h0 : builderInv initBuilder := List.nil_sublist []
  cases h1 : addModuleLoop pythonVersion platform initBuilder w.topLevel with
  | error e => simp [buildSteps, h1, hasPrefixOfR, filesOfR]
  | ok p1 =>
    obtain ⟨b1, es1⟩ := p1
    have hI1 : builderInv b1 :=
      builderInv_addModuleLoop pythonVersion platform w.topLevel initBuilder
        h0 b1 es1 h1
    cases h2 : createScripts digestFn findExe platform bitness w b1 with
    | error e => simp [buildSteps, h1, h2, hasPrefixOfR, filesOfR]
    | ok p2 =>
      obtain ⟨b2, es2⟩ := p2
      have hI2 : builderInv b2 :=
        builderInv_createScripts digestFn findExe platform bitness w b1 hI1
          b2 es2 h2
      cases h3 : writePep376Record pythonVersion platform w b2 with
      | error e => simp [buildSteps, h1, h2, h3, hasPrefixOfR, filesOfR]
      | ok recEntry =>
        cases h4 : writeIndex parse pythonVersion platform bitness w with
        | error e => simp [buildSteps, h1, h2, h3, h4, hasPrefixOfR, filesOfR]
        | ok ixEntry =>
          simpa [buildSteps, h1, h2, h3, h4, hasPrefixOfR, filesOfR]
            using hI2

/-- A minimal wheel whose only console_scripts entry point is
`mytool = mypkg.cli:main`. -/
def wheelC3 : WheelModel :=
  { topLevel := [("mypkg-1.0.dist-info", FsNode.dir 1
      (FsChildren.cons "METADATA" (FsNode.file "Name: mypkg\n" 1)
        (FsChildren.cons "RECORD" (FsNode.file "" 1)
          (FsChildren.cons "entry_points.txt"
            (FsNode.file "[console_scripts]\nmytool = mypkg.cli:main\n" 1)
            FsChildren.nil))))],
    metadata := [("Name", ("mypkg", [])), ("Version", ("1.0", []))],
    recordRows := [],
    entryPoints := some [("mytool", "mypkg.cli:main")] }

def buildC3win : Except String (Builder × List TarEntry) :=
  buildSteps markerParse (fun _ => "d3") (fun _ => ("EXE3", 3)) wheelC3 "3.6"
    Platform.win "64"

/-- C3, counterexample: on windows/64 the `info/files` listing records
`Scripts/mytool-script.py` before `Scripts/mytool.exe` (the script is
written and recorded first), not the other way round as the claim
states. -/
theorem c3_counterexample :
    ("Scripts/mytool.exe" ∈ filesOfR buildC3win)
    ∧ ("Scripts/mytool-script.py" ∈ filesOfR buildC3win)
    ∧ ¬((filesOfR buildC3win).indexOf "Scripts/mytool.exe"
        < (filesOfR buildC3win).indexOf "Scripts/mytool-script.py")
    ∧ (filesOfR buildC3win).indexOf "Scripts/mytool-script.py"
        < (filesOfR buildC3win).indexOf "Scripts/mytool.exe" := by
  refine ⟨by decide, by decide, by decide, by decide⟩

/-- The launcher script text generated for `mytool = mypkg.cli:main`. -/
def mytoolScript : String :=
  scriptTemplate "mypkg.cli" "main" (condaPlaceholder ++ "/bin/python")

/-- Helper for C3: the script loop on the single entry
`mytool = mypkg.cli:main` for a non-Windows target. -/
theorem createScriptsLoop_mytool_unix (digestFn : String → String)
    (findExe : String → String × Nat) (platform : Platform) (bitness : String)
    (b : Builder) (hplat : platform ≠ Platform.win) :
    createScriptsLoop digestFn findExe platform bitness b
      [("mytool", "mypkg.cli:main")]
      = .ok (pyRecordFile digestFn
          (recordFile b (scriptsPath platform ++ "mytool") true)
          (scriptsPath platform ++ "mytool") mytoolScript,
        [⟨scriptsPath platform ++ "mytool", mytoolScript, 0⟩]) := by
  have hsplit : pySplitChar "mypkg.cli:main" ':' = ["mypkg.cli", "main"] := by
    decide
  simp [createScriptsLoop, hsplit, hplat, writeScriptUnix, mytoolScript]

/-- Helper for C3: the script loop on the single entry
`mytool = mypkg.cli:main` for windows/64 writes the `-script.py` launcher
first and the `.exe` second. -/
theorem createScriptsLoop_mytool_win (digestFn : String → String)
    (findExe : String → String × Nat) (b : Builder) :
    createScriptsLoop digestFn findExe Platform.win "64" b
      [("mytool", "mypkg.cli:main")]
      = .ok (pyRecordFile digestFn
          (recordFile
            (pyRecordFile digestFn
              (recordFile b "Scripts/mytool-script.py" true)
              "Scripts/mytool-script.py" mytoolScript)
            "Scripts/mytool.exe" false)
          "Scripts/mytool.exe" (findExe "x64").1,
        [⟨"Scripts/mytool-script.py", mytoolScript, 0⟩,
         ⟨"Scripts/mytool.exe", (findExe "x64").1, (findExe "x64").2⟩]) := by
  have hsplit : pySplitChar "mypkg.cli:main" ':' = ["mypkg.cli", "main"] := by
    decide
  have e1 : scriptsPath Platform.win ++ "mytool-script.py"
      = "Scripts/mytool-script.py" := by decide
  have e2 : scriptsPath Platform.win ++ "mytool" ++ ".exe"
      = "Scripts/mytool.exe" := by decide
  cases hfe : findExe "x64" with
  | mk xb xm =>
    simp [createScriptsLoop, hsplit, writeScriptWindows, writeScriptUnix,
      mytoolScript, e1, e2, hfe]

/-- C3 (amended): for a wheel whose only console_scripts entry point is
`mytool = mypkg.cli:main`, a successful linux/64 build contains the file
`bin/mytool` whose contents contain `from mypkg.cli import main` and start
with the placeholder interpreter line; a successful windows/64 build
contains both `Scripts/mytool.exe` and `Scripts/mytool-script.py`, and the
`info/files` listing ends with `Scripts/mytool-script.py` followed by
`Scripts/mytool.exe` — the script before the launcher, the reverse of the
claimed order. -/
theorem c3_scripts_amended (parse : String → Except String MarkerExpr)
    (digestFn : String → String) (findExe : String → String × Nat)
    (w : WheelModel) (pythonVersion : String)
    (hEP : w.entryPoints = some [("mytool", "mypkg.cli:main")]) :
    (isOkR (buildSteps parse digestFn findExe w pythonVersion Platform.linux
        "64") = true →
      (∃ e ∈ entriesOfR (buildSteps parse digestFn findExe w pythonVersion
          Platform.linux "64"),
        e.name = "bin/mytool"
        ∧ hasSubstr e.contents "from mypkg.cli import main" = true
        ∧ pyStartsWith e.contents
            "#!/opt/anaconda1anaconda2anaconda3/bin/python" = true)
      ∧ ∃ fpre : List String,
        filesOfR (buildSteps parse digestFn findExe w pythonVersion
          Platform.linux "64") = fpre ++ ["bin/mytool"])
    ∧ (isOkR (buildSteps parse digestFn findExe w pythonVersion Platform.win
        "64") = true →
      (∃ e ∈ entriesOfR (buildSteps parse digestFn findExe w pythonVersion
          Platform.win "64"), e.name = "Scripts/mytool.exe")
      ∧ (∃ e ∈ entriesOfR (buildSteps parse digestFn findExe w pythonVersion
          Platform.win "64"), e.name = "Scripts/mytool-script.py")
      ∧ ∃ fpre : List String,
        filesOfR (buildSteps parse digestFn findExe w pythonVersion
          Platform.win "64")
          = fpre ++ ["Scripts/mytool-script.py", "Scripts/mytool.exe"]) := by
  constructor
  · intro hok
    cases h1 : addModuleLoop pythonVersion Platform.linux initBuilder
        w.topLevel with
    | error e => simp [buildSteps, h1, isOkR] at hok
    | ok p1 =>
      obtain ⟨b1, es1⟩ := p1
      have hcs : createScripts digestFn findExe Platform.linux "64" w b1
          = .ok (pyRecordFile digestFn (recordFile b1 "bin/mytool" true)
              "bin/mytool" mytoolScript,
            [⟨"bin/mytool", mytoolScript, 0⟩]) := by
        rw [createScripts, hEP]
        simp only [List.map_cons, List.map_nil]
        rw [show optionxform_effective "mytool" = "mytool" from by decide]
        have h := createScriptsLoop_mytool_unix digestFn findExe
          Platform.linux "64" b1 (by decide)
        rwa [show scriptsPath Platform.linux ++ "mytool" = "bin/mytool" from
          by decide] at h
      cases h3 : writePep376Record pythonVersion Platform.linux w
          (pyRecordFile digestFn (recordFile b1 "bin/mytool" true)
            "bin/mytool" mytoolScript) with
      | error e => simp [buildSteps, h1, hcs, h3, isOkR] at hok
      | ok recE =>
        cases h4 : writeIndex parse pythonVersion Platform.linux "64" w with
        | error e => simp [buildSteps, h1, hcs, h3, h4, isOkR] at hok
        | ok ixE =>
          constructor
          · refine ⟨⟨"bin/mytool", mytoolScript, 0⟩, ?_, rfl, by decide,
              by decide⟩
            simp [buildSteps, h1, hcs, h3, h4, entriesOfR]
          · refine ⟨b1.files, ?_⟩
            have h3b := h3
            simp [pyRecordFile, recordFile] at h3b
            simp [buildSteps, h1, hcs, h3b, h4, filesOfR, pyRecordFile,
              recordFile]
  · intro hok
    cases h1 : addModuleLoop pythonVersion Platform.win initBuilder
        w.topLevel with
    | error e => simp [buildSteps, h1, isOkR] at hok
    | ok p1 =>
      obtain ⟨b1, es1⟩ := p1
      have hcs : createScripts digestFn findExe Platform.win "64" w b1
          = .ok (pyRecordFile digestFn
              (recordFile
                (pyRecordFile digestFn
                  (recordFile b1 "Scripts/mytool-script.py" true)
                  "Scripts/mytool-script.py" mytoolScript)
                "Scripts/mytool.exe" false)
              "Scripts/mytool.exe" (findExe "x64").1,
            [⟨"Scripts/mytool-script.py", mytoolScript, 0⟩,
             ⟨"Scripts/mytool.exe", (findExe "x64").1, (findExe "x64").2⟩])
          := by
        rw [createScripts, hEP]
        simp only [List.map_cons, List.map_nil]
        rw [show optionxform_effective "mytool" = "mytool" from by decide]
        exact createScriptsLoop_mytool_win digestFn findExe b1
      cases h3 : writePep376Record pythonVersion Platform.win w
          (pyRecordFile digestFn
            (recordFile
              (pyRecordFile digestFn
                (recordFile b1 "Scripts/mytool-script.py" true)
                "Scripts/mytool-script.py" mytoolScript)
              "Scripts/mytool.exe" false)
            "Scripts/mytool.exe" (findExe "x64").1) with
      | error e => simp [buildSteps, h1, hcs, h3, isOkR] at hok
      | ok recE =>
        cases h4 : writeIndex parse pythonVersion Platform.win "64" w with
        | error e => simp [buildSteps, h1, hcs, h3, h4, isOkR] at hok
        | ok ixE =>
          refine ⟨?_, ?_, ?_⟩
          · refine ⟨⟨"Scripts/mytool.exe", (findExe "x64").1,
              (findExe "x64").2⟩, ?_, rfl⟩
            simp [buildSteps, h1, hcs, h3, h4, entriesOfR]
          · refine ⟨⟨"Scripts/mytool-script.py", mytoolScript, 0⟩, ?_, rfl⟩
            simp [buildSteps, h1, hcs, h3, h4, entriesOfR]
          · refine ⟨b1.files, ?_⟩
            have h3b := h3
            simp [pyRecordFile, recordFile] at h3b
            simp [buildSteps, h1, hcs, h3b, h4, filesOfR, pyRecordFile,
              recordFile]

def buildC3lin : Except String (Builder × List TarEntry) :=
  buildSteps markerParse (fun _ => "d3") (fun _ => ("EXE3", 3)) wheelC3 "3.6"
    Platform.linux "64"

/-- C3, witness for the amended theorem on a concrete minimal wheel. -/
theorem c3_scripts_amended_witness :
    ((∃ e ∈ entriesOfR buildC3lin, e.name = "bin/mytool"
        ∧ hasSubstr e.contents "from mypkg.cli import main" = true
        ∧ pyStartsWith e.contents
            "#!/opt/anaconda1anaconda2anaconda3/bin/python" = true)
      ∧ ∃ fpre : List String, filesOfR buildC3lin = fpre ++ ["bin/mytool"])
    ∧ ((∃ e ∈ entriesOfR buildC3win, e.name = "Scripts/mytool.exe")
      ∧ (∃ e ∈ entriesOfR buildC3win, e.name = "Scripts/mytool-script.py")
      ∧ ∃ fpre : List String, filesOfR buildC3win
          = fpre ++ ["Scripts/mytool-script.py", "Scripts/mytool.exe"]) := by
  have h := c3_scripts_amended markerParse (fun _ => "d3")
    (fun _ => ("EXE3", 3)) wheelC3 "3.6" rfl
  exact ⟨h.1 (by decide), h.2 (by decide)⟩

/-! ### C9: build determinism up to timestamp fields

The mtime of every produced tar member comes either from the input data
(file/directory mtimes, the launcher's mtime) or is the constant 0 of a
fresh `TarInfo`; no member name or contents depends on any mtime.  We make
that precise by erasing mtimes from the inputs and showing the build
commutes with erasure. -/

mutual
def eraseNode : FsNode → FsNode
  | .file c _ => .file c 0
  | .dir _ cs => .dir 0 (eraseChildren cs)
def eraseChildren : FsChildren → FsChildren
  | .nil => .nil
  | .cons n t rest => .cons n (eraseNode t) (eraseChildren rest)
end

def eraseTops (l : List (String × FsNode)) : List (String × FsNode) :=
  l.map (fun p => (p.1, eraseNode p.2))

/-- The same wheel with every filesystem timestamp set to zero. -/
def eraseWheel (w : WheelModel) : WheelModel :=
  { w with topLevel := eraseTops w.topLevel }

def eraseEntry (e : TarEntry) : TarEntry := { e with mtime := 0 }

/-- A launcher provider with the same bytes and zeroed mtimes. -/
def normExe (findExe : String → String × Nat) : String → String × Nat :=
  fun a => ((findExe a).1, 0)

/-- Erase the mtimes of all entries of a build result. -/
def mapEntriesR (r : Except String (Builder × List TarEntry)) :
    Except String (Builder × List TarEntry) :=
  Except.map (fun p => (p.1, p.2.map eraseEntry)) r

/-- A build result without its timestamp fields: the final builder state
and the (name, contents) sequence of the archive members. -/
def stripResult (r : Except String (Builder × List TarEntry)) :
    Except String (Builder × List (String × String)) :=
  Except.map (fun p => (p.1, p.2.map (fun e => (e.name, e.contents)))) r

mutual
theorem tarAddNode_erase (keep : String → Bool) :
    ∀ (arc : String) (t : FsNode),
    tarAddNode keep arc (eraseNode t) = (tarAddNode keep arc t).map eraseEntry
  | arc, .file c m => by
    cases hk : keep arc <;> simp [tarAddNode, eraseNode, eraseEntry, hk]
  | arc, .dir m cs => by
    cases hk : keep arc <;>
      simp [tarAddNode, eraseNode, eraseEntry, hk,
        tarAddChildren_erase keep arc cs]
theorem tarAddChildren_erase (keep : String → Bool) :
    ∀ (arc : String) (cs : FsChildren),
    tarAddChildren keep arc (eraseChildren cs)
      = (tarAddChildren keep arc cs).map eraseEntry
  | _, .nil => by simp [tarAddChildren, eraseChildren]
  | arc, .cons n t rest => by
    simp [tarAddChildren, eraseChildren, tarAddNode_erase keep _ t,
      tarAddChildren_erase keep arc rest]
end

theorem walkChildrenFiles_erase :
    ∀ (arc : String) (cs : FsChildren),
    walkChildrenFiles arc (eraseChildren cs) = walkChildrenFiles arc cs
  | _, .nil => rfl
  | arc, .cons n (.file c m) rest => by
    simp [eraseChildren, eraseNode, walkChildrenFiles,
      walkChildrenFiles_erase arc rest]
  | arc, .cons n (.dir m cs2) rest => by
    simp [eraseChildren, eraseNode, walkChildrenFiles,
      walkChildrenFiles_erase arc rest]

theorem walkChildrenSub_erase :
    ∀ (arc : String) (cs : FsChildren),
    walkChildrenSub arc (eraseChildren cs) = walkChildrenSub arc cs
  | _, .nil => rfl
  | arc, .cons n (.file c m) rest => by
    simp [eraseChildren, eraseNode, walkChildrenSub,
      walkChildrenSub_erase arc rest]
  | arc, .cons n (.dir m cs2) rest => by
    simp [eraseChildren, eraseNode, walkChildrenSub,
      walkChildrenFiles_erase (arc ++ "/" ++ n) cs2,
      walkChildrenSub_erase (arc ++ "/" ++ n) cs2,
      walkChildrenSub_erase arc rest]

theorem recordFileOrDir_erase (b : Builder) (arc : String) (t : FsNode) :
    recordFileOrDir b arc (eraseNode t) = recordFileOrDir b arc t := by
  cases t with
  | file c m => rfl
  | dir m cs =>
    simp [recordFileOrDir, eraseNode, walkChildrenFiles_erase,
      walkChildrenSub_erase]

theorem addDataChildren_erase :
    ∀ (cs : FsChildren) (b : Builder),
    addDataChildren b (eraseChildren cs)
      = ((addDataChildren b cs).1, (addDataChildren b cs).2.map eraseEntry)
  | .nil, _ => by simp [addDataChildren, eraseChildren]
  | .cons n t rest, b => by
    simp [addDataChildren, eraseChildren, tarAddNode_erase,
      recordFileOrDir_erase, addDataChildren_erase rest (recordFileOrDir b n t)]

theorem addDataDirLoop_erase :
    ∀ (cs : FsChildren) (b : Builder),
    addDataDirLoop b (eraseChildren cs) = mapEntriesR (addDataDirLoop b cs)
  | .nil, _ => by simp [addDataDirLoop, eraseChildren, mapEntriesR, Except.map]
  | .cons n t rest, b => by
    by_cases hn : n = "data"
    · cases t with
      | file c m =>
        simp [addDataDirLoop, eraseChildren, eraseNode, hn, mapEntriesR,
          Except.map]
      | dir m gcs =>
        simp only [addDataDirLoop, eraseChildren, eraseNode, hn, if_pos]
        rw [addDataChildren_erase gcs b]
        cases hac : addDataChildren b gcs with
        | mk bA esA =>
          simp only
          rw [addDataDirLoop_erase rest bA]
          cases hr : addDataDirLoop bA rest with
          | error e => simp [mapEntriesR, Except.map]
          | ok p =>
            obtain ⟨b3, es2⟩ := p
            simp [mapEntriesR, Except.map]
    · simp [addDataDirLoop, eraseChildren, hn, mapEntriesR, Except.map]

theorem addDataDir_erase (b : Builder) (t : FsNode) :
    addDataDir b (eraseNode t) = mapEntriesR (addDataDir b t) := by
  cases t with
  | file c m => simp [addDataDir, eraseNode, mapEntriesR, Except.map]
  | dir m cs => simpa [addDataDir, eraseNode] using addDataDirLoop_erase cs b

theorem addModuleLoop_erase (pythonVersion : String) (platform : Platform) :
    ∀ (l : List (String × FsNode)) (b : Builder),
    addModuleLoop pythonVersion platform b (eraseTops l)
      = mapEntriesR (addModuleLoop pythonVersion platform b l) := by
  intro l
  induction l with
  | nil => intro b; simp [addModuleLoop, eraseTops, mapEntriesR, Except.map]
  | cons p rest ih =>
    intro b
    obtain ⟨name, node⟩ := p
    have htail : eraseTops ((name, node) :: rest)
        = (name, eraseNode node) :: eraseTops rest := by
      simp [eraseTops]
    rw [htail]
    by_cases hd : pyEndsWith name ".data" = true
    · simp only [addModuleLoop, hd, if_pos]
      rw [addDataDir_erase b node]
      cases hdd : addDataDir b node with
      | error e => simp [mapEntriesR, Except.map]
      | ok p1 =>
        obtain ⟨bA, esA⟩ := p1
        simp only [mapEntriesR, Except.map]
        rw [ih bA]
        cases hr : addModuleLoop pythonVersion platform bA rest with
        | error e => simp [mapEntriesR, Except.map]
        | ok p2 =>
          obtain ⟨b3, es2⟩ := p2
          simp [mapEntriesR, Except.map]
    · have hd2 : pyEndsWith name ".data" = false := by simpa using hd
      by_cases hdi : pyEndsWith name ".dist-info" = true
      · simp only [addModuleLoop, hd2, hdi, Bool.false_eq_true, if_false,
          if_pos]
        rw [tarAddNode_erase, recordFileOrDir_erase, ih]
        cases hr : addModuleLoop pythonVersion platform
            (recordFileOrDir b
              (sitePackagesPath platform pythonVersion ++ name) node) rest with
        | error e => simp [mapEntriesR, Except.map]
        | ok p2 =>
          obtain ⟨b3, es2⟩ := p2
          simp [mapEntriesR, Except.map]
      · have hdi2 : pyEndsWith name ".dist-info" = false := by simpa using hdi
        simp only [addModuleLoop, hd2, hdi2, Bool.false_eq_true, if_false]
        rw [tarAddNode_erase, recordFileOrDir_erase, ih]
        cases hr : addModuleLoop pythonVersion platform
            (recordFileOrDir b
              (sitePackagesPath platform pythonVersion ++ name) node) rest with
        | error e => simp [mapEntriesR, Except.map]
        | ok p2 =>
          obtain ⟨b3, es2⟩ := p2
          simp [mapEntriesR, Except.map]

theorem writeScriptUnix_entries (digestFn : String → String)
    (platform : Platform) (b : Builder) (name contents : String) :
    (writeScriptUnix digestFn platform b name contents).2.map eraseEntry
      = (writeScriptUnix digestFn platform b name contents).2 := by
  simp [writeScriptUnix, eraseEntry]

theorem writeScriptWindows_norm (digestFn : String → String)
    (findExe : String → String × Nat) (platform : Platform) (bitness : String)
    (b : Builder) (name contents : String) :
    writeScriptWindows digestFn (normExe findExe) platform bitness b name
        contents
      = ((writeScriptWindows digestFn findExe platform bitness b name
            contents).1,
         (writeScriptWindows digestFn findExe platform bitness b name
            contents).2.map eraseEntry) := by
  cases hfe : findExe (if bitness = "64" then "x64" else "x86") with
  | mk xb xm =>
    simp [writeScriptWindows, writeScriptUnix, normExe, hfe, eraseEntry]

theorem createScriptsLoop_norm (digestFn : String → String)
    (findExe : String → String × Nat) (platform : Platform)
    (bitness : String) :
    ∀ (eps : List (String × String)) (b : Builder),
    createScriptsLoop digestFn (normExe findExe) platform bitness b eps
      = mapEntriesR
          (createScriptsLoop digestFn findExe platform bitness b eps) := by
  intro eps
  induction eps with
  | nil => intro b; simp [createScriptsLoop, mapEntriesR, Except.map]
  | cons p rest ih =>
    intro b
    obtain ⟨name, ep⟩ := p
    cases hsp : pySplitChar ep ':' with
    | nil => simp [createScriptsLoop, hsp, mapEntriesR, Except.map]
    | cons m1 parts =>
      cases parts with
      | nil => simp [createScriptsLoop, hsp, mapEntriesR, Except.map]
      | cons m2 parts2 =>
        cases parts2 with
        | cons m3 parts3 =>
          simp [createScriptsLoop, hsp, mapEntriesR, Except.map]
        | nil =>
          by_cases hw : platform = Platform.win
          · simp only [createScriptsLoop, hsp, if_pos hw]
            rw [writeScriptWindows_norm]
            cases hws : writeScriptWindows digestFn findExe platform bitness b
                name (scriptTemplate m1 m2 (condaPlaceholder ++ "/bin/python"))
                with
            | mk bW esW =>
              simp only
              rw [ih bW]
              cases hr : createScriptsLoop digestFn findExe platform bitness
                  bW rest with
              | error e => simp [mapEntriesR, Except.map]
              | ok p2 =>
                obtain ⟨b3, es2⟩ := p2
                simp [mapEntriesR, Except.map]
          · simp only [createScriptsLoop, hsp, if_neg hw]
            cases hws : writeScriptUnix digestFn platform b name
                (scriptTemplate m1 m2 (condaPlaceholder ++ "/bin/python")) with
            | mk bU esU =>
              have hes : esU.map eraseEntry = esU := by
                have h2 := writeScriptUnix_entries digestFn platform b name
                  (scriptTemplate m1 m2 (condaPlaceholder ++ "/bin/python"))
                rw [hws] at h2
                simpa using h2
              simp only
              rw [ih bU]
              cases hr : createScriptsLoop digestFn findExe platform bitness
                  bU rest with
              | error e => simp [mapEntriesR, Except.map]
              | ok p2 =>
                obtain ⟨b3, es2⟩ := p2
                simp [mapEntriesR, Except.map, hes]

theorem createScripts_norm (digestFn : String → String)
    (findExe : String → String × Nat) (platform : Platform)
    (bitness : String) (w : WheelModel) (b : Builder) :
    createScripts digestFn (normExe findExe) platform bitness (eraseWheel w) b
      = mapEntriesR (createScripts digestFn findExe platform bitness w b) := by
  cases heps : w.entryPoints with
  | none =>
    simp [createScripts, eraseWheel, heps, mapEntriesR, Except.map]
  | some eps =>
    simp only [createScripts, eraseWheel, heps]
    exact createScriptsLoop_norm digestFn findExe platform bitness _ b

theorem findDistInfo_eraseTops :
    ∀ l : List (String × FsNode),
    findDistInfo (eraseTops l)
      = (findDistInfo l).map (fun p => (p.1, eraseNode p.2))
  | [] => by simp [findDistInfo, eraseTops, Except.map]
  | (n, t) :: rest => by
    by_cases hn : pyEndsWith n ".dist-info" = true
    · simp [findDistInfo, eraseTops, hn, Except.map]
    · have hn2 : pyEndsWith n ".dist-info" = false := by simpa using hn
      simpa [findDistInfo, eraseTops, hn2] using findDistInfo_eraseTops rest

theorem writePep376Record_erase (pythonVersion : String) (platform : Platform)
    (w : WheelModel) (b : Builder) :
    writePep376Record pythonVersion platform (eraseWheel w) b
      = writePep376Record pythonVersion platform w b := by
  simp only [writePep376Record, eraseWheel]
  rw [findDistInfo_eraseTops]
  cases hdi : findDistInfo w.topLevel with
  | error e => simp [Except.map]
  | ok p =>
    obtain ⟨n, t⟩ := p
    simp [Except.map]

theorem writePep376Record_mtime (pythonVersion : String) (platform : Platform)
    (w : WheelModel) (b : Builder) (e : TarEntry)
    (he : writePep376Record pythonVersion platform w b = .ok e) :
    e.mtime = 0 := by
  rw [writePep376Record] at he
  cases hdi : findDistInfo w.topLevel with
  | error e2 => rw [hdi] at he; cases he
  | ok p => rw [hdi] at he; cases he; rfl

theorem writeIndex_mtime (parse : String → Except String MarkerExpr)
    (pythonVersion : String) (platform : Platform) (bitness : String)
    (w : WheelModel) (e : TarEntry)
    (he : writeIndex parse pythonVersion platform bitness w = .ok e) :
    e.mtime = 0 := by
  rw [writeIndex] at he
  cases hr : requires_dist_to_conda_requirements parse
      (mdGetList w.metadata "Requires-Dist") pythonVersion
      (platformName platform) bitness with
  | error e2 => rw [hr] at he; cases he
  | ok condaReqs =>
    rw [hr] at he
    simp only at he
    cases hn : mdLookup w.metadata "Name" with
    | none => rw [hn] at he; cases he
    | some pn =>
      obtain ⟨nm, r1⟩ := pn
      rw [hn] at he
      simp only at he
      cases hv : mdLookup w.metadata "Version" with
      | none => rw [hv] at he; cases he
      | some pv2 =>
        obtain ⟨ver, r2⟩ := pv2
        rw [hv] at he
        cases he
        rfl

theorem buildSteps_erase (parse : String → Except String MarkerExpr)
    (digestFn : String → String) (findExe : String → String × Nat)
    (w : WheelModel) (pythonVersion : String) (platform : Platform)
    (bitness : String) :
    buildSteps parse digestFn (normExe findExe) (eraseWheel w) pythonVersion
        platform bitness
      = mapEntriesR
          (buildSteps parse digestFn findExe w pythonVersion platform
            bitness) := by
  simp only [buildSteps]
  have ht : (eraseWheel w).topLevel = eraseTops w.topLevel := rfl
  rw [ht, addModuleLoop_erase]
  cases h1 : addModuleLoop pythonVersion platform initBuilder w.topLevel with
  | error e => simp [mapEntriesR, Except.map]
  | ok p1 =>
    obtain ⟨b1, es1⟩ := p1
    simp only [mapEntriesR, Except.map]
    rw [createScripts_norm]
    cases h2 : createScripts digestFn findExe platform bitness w b1 with
    | error e => simp [mapEntriesR, Except.map]
    | ok p2 =>
      obtain ⟨b2, es2⟩ := p2
      simp only [mapEntriesR, Except.map]
      rw [writePep376Record_erase]
      cases h3 : writePep376Record pythonVersion platform w b2 with
      | error e => simp
      | ok recE =>
        have hix : writeIndex parse pythonVersion platform bitness
            (eraseWheel w)
            = writeIndex parse pythonVersion platform bitness w := rfl
        rw [hix]
        cases h4 : writeIndex parse pythonVersion platform bitness w with
        | error e => simp
        | ok ixE =>
          have hrec : eraseEntry recE = recE := by
            have hm := writePep376Record_mtime pythonVersion platform w b2
              recE h3
            cases recE
            simp only [TarEntry.mk.injEq] at hm ⊢
            simp [eraseEntry, hm]
          have hix0 : eraseEntry ixE = ixE := by
            have hm := writeIndex_mtime parse pythonVersion platform bitness
              w ixE h4
            cases ixE
            simp only at hm
            simp [eraseEntry, hm]
          simp [List.map_append, hrec, hix0, eraseEntry, writeHasPrefixList,
            writeFilesList]
          exact ⟨hrec.symm, hix0.symm⟩

/-- C9: two builds whose inputs agree except for filesystem timestamps
(same extracted wheel data up to mtimes, same target environment, same
launcher bytes, same hash function, same marker parser) produce the same
archive-member sequence up to the timestamp fields of the tar headers, and
the same final builder state.  In particular, identical inputs give
identical archives up to timestamps. -/
theorem c9_build_deterministic (parse : String → Except String MarkerExpr)
    (digestFn : String → String) (f1 f2 : String → String × Nat)
    (w1 w2 : WheelModel) (pythonVersion : String) (platform : Platform)
    (bitness : String) (hw : eraseWheel w1 = eraseWheel w2)
    (hf : ∀ a, (f1 a).1 = (f2 a).1) :
    stripResult (buildSteps parse digestFn f1 w1 pythonVersion platform
        bitness)
      = stripResult (buildSteps parse digestFn f2 w2 pythonVersion platform
        bitness) := by
  have hn : normExe f1 = normExe f2 := funext (fun a => by
    simp [normExe, hf a])
  have hs : ∀ r : Except String (Builder × List TarEntry),
      stripResult (mapEntriesR r) = stripResult r := by
    intro r
    cases r with
    | error e => rfl
    | ok p =>
      obtain ⟨b, es⟩ := p
      simp [stripResult, mapEntriesR, Except.map, List.map_map,
        Function.comp, eraseEntry]
  calc stripResult (buildSteps parse digestFn f1 w1 pythonVersion platform
        bitness)
      = stripResult (mapEntriesR (buildSteps parse digestFn f1 w1
          pythonVersion platform bitness)) := (hs _).symm
    _ = stripResult (buildSteps parse digestFn (normExe f1) (eraseWheel w1)
          pythonVersion platform bitness) := by rw [buildSteps_erase]
    _ = stripResult (buildSteps parse digestFn (normExe f2) (eraseWheel w2)
          pythonVersion platform bitness) := by rw [hn, hw]
    _ = stripResult (mapEntriesR (buildSteps parse digestFn f2 w2
          pythonVersion platform bitness)) := by rw [buildSteps_erase]
    _ = stripResult (buildSteps parse digestFn f2 w2 pythonVersion platform
          bitness) := hs _

/-- Wheels for the C9 witness: identical contents, different mtimes. -/
def wheelC9a : WheelModel :=
  { topLevel := [("mypkg-1.0.dist-info", FsNode.dir 11
      (FsChildren.cons "METADATA" (FsNode.file "Name: mypkg\n" 12)
        (FsChildren.cons "RECORD" (FsNode.file "" 13)
          (FsChildren.cons "entry_points.txt"
            (FsNode.file "[console_scripts]\nmytool = mypkg.cli:main\n" 14)
            FsChildren.nil))))],
    metadata := [("Name", ("mypkg", [])), ("Version", ("1.0", []))],
    recordRows := [("mypkg.data/data/share/x", ["sha256=abc", "10"])],
    entryPoints := some [("mytool", "mypkg.cli:main")] }

def wheelC9b : WheelModel :=
  { topLevel := [("mypkg-1.0.dist-info", FsNode.dir 21
      (FsChildren.cons "METADATA" (FsNode.file "Name: mypkg\n" 22)
        (FsChildren.cons "RECORD" (FsNode.file "" 23)
          (FsChildren.cons "entry_points.txt"
            (FsNode.file "[console_scripts]\nmytool = mypkg.cli:main\n" 24)
            FsChildren.nil))))],
    metadata := [("Name", ("mypkg", [])), ("Version", ("1.0", []))],
    recordRows := [("mypkg.data/data/share/x", ["sha256=abc", "10"])],
    entryPoints := some [("mytool", "mypkg.cli:main")] }

/-- C9, witness: two windows/64 builds of the same wheel contents with
different file and launcher mtimes agree once timestamps are stripped. -/
theorem c9_build_deterministic_witness :
    stripResult (buildSteps markerParse (fun _ => "d9")
        (fun _ => ("EXE9", 5)) wheelC9a "3.6" Platform.win "64")
      = stripResult (buildSteps markerParse (fun _ => "d9")
        (fun _ => ("EXE9", 9)) wheelC9b "3.6" Platform.win "64") :=
  c9_build_deterministic markerParse (fun _ => "d9") (fun _ => ("EXE9", 5))
    (fun _ => ("EXE9", 9)) wheelC9a wheelC9b "3.6" Platform.win "64" rfl
    (fun _ => rfl)
